import Mathlib

/-!
Shallow embedding of the LMU-Telemetry-Analyzer segment pipeline
(`backend/app/core/distance_normalizer.py`, `track_layout.py`, `metrics.py`,
`reference_lap.py`, `segments.py`, `services/segment_cache.py`).

Python floats are modelled as rationals (`ℚ`): every constant and every
arithmetic operation appearing in the verified claims is exact in binary64
for the inputs considered, and the control flow only compares, adds,
subtracts, multiplies and divides.  Fallible code (uncaught `IndexError`,
the `ValueError` guards that the spec calls `InputError`) is modelled with
`Except`/`Option`.
-/

namespace App

/-- `DistanceNormalizer.WRAP_THRESHOLD` (50.0). -/
def WRAP_THRESHOLD : ℚ := 50

/-- `DistanceNormalizer.NEGATIVE_JUMP_THRESHOLD` (10.0). -/
def NEGATIVE_JUMP_THRESHOLD : ℚ := 10

/-- `app.models.segment.NormalizedDistance`. -/
structure NormalizedDistance where
  original_distances : List ℚ
  normalized_distances : List ℚ
  track_length : ℚ
  wrap_points : List ℕ
deriving DecidableEq, Repr

/-- `DistanceNormalizer._find_next_valid`: first non-negative value strictly
after `start_idx`. -/
def findNextValid (lap_distances : List ℚ) (start_idx : ℕ) : Option ℚ :=
  (lap_distances.drop (start_idx + 1)).find? (fun d => decide (0 ≤ d))

/-- Inner loop of `DistanceNormalizer._estimate_track_length`: running maximum
`m` with previous element `prev`, stopping at the first drop exceeding
`WRAP_THRESHOLD`. -/
def estRun (m prev : ℚ) : List ℚ → ℚ
  | [] => m
  | v :: rest => if v < prev - WRAP_THRESHOLD then m else estRun (max m v) v rest

/-- `DistanceNormalizer._estimate_track_length`. -/
def estimateTrackLength (lap_distances : List ℚ) : ℚ :=
  match lap_distances.filter (fun d => decide (0 ≤ d)) with
  | [] => 0
  | v0 :: rest => estRun v0 v0 rest

/-- Mutable state of the `normalize` per-sample loop.  `accRev` is the
`normalized` list in reverse (so `accRev.headD 0` is `normalized[-1]`),
`wrapsRev` is `wrap_points` in reverse, `off` is `accumulated_offset`. -/
structure NormState where
  accRev : List ℚ
  wrapsRev : List ℕ
  off : ℚ
deriving DecidableEq, Repr

/-- One iteration of the `for i, dist in enumerate(lap_distances)` loop of
`DistanceNormalizer.normalize`, at index `i`. -/
def normStep (lap_distances : List ℚ) (track_length : ℚ) (s : NormState) (i : ℕ) :
    NormState :=
  let dist := lap_distances.getD i 0
  if dist < 0 then
    if i = 0 then
      { s with accRev := s.off :: s.accRev }
    else
      let prev_valid := s.accRev.headD 0
      match findNextValid lap_distances i with
      | some next_valid =>
          { s with accRev := (prev_valid + (next_valid - prev_valid) * (1/2)) :: s.accRev }
      | none => { s with accRev := prev_valid :: s.accRev }
  else
    if 0 < i ∧ 0 ≤ lap_distances.getD (i - 1) 0 then
      let prev_dist := lap_distances.getD (i - 1) 0
      if prev_dist - dist > WRAP_THRESHOLD then
        { accRev := (dist + (s.off + track_length)) :: s.accRev,
          wrapsRev := i :: s.wrapsRev,
          off := s.off + track_length }
      else if dist < prev_dist - NEGATIVE_JUMP_THRESHOLD then
        if s.accRev.isEmpty then { s with accRev := (dist + s.off) :: s.accRev }
        else { s with accRev := s.accRev.headD 0 :: s.accRev }
      else { s with accRev := (dist + s.off) :: s.accRev }
    else { s with accRev := (dist + s.off) :: s.accRev }

/-- `DistanceNormalizer.normalize`. -/
def normalize (lap_distances : List ℚ) (lap_start_offset : ℚ := 0) :
    NormalizedDistance :=
  if lap_distances.isEmpty then
    { original_distances := [], normalized_distances := [], track_length := 0,
      wrap_points := [] }
  else if lap_distances.length < 2 then
    { original_distances := lap_distances,
      normalized_distances := [lap_start_offset],
      track_length := lap_distances.headD 0,
      wrap_points := [] }
  else
    let track_length := estimateTrackLength lap_distances
    let s := (List.range lap_distances.length).foldl
      (normStep lap_distances track_length)
      { accRev := [], wrapsRev := [], off := lap_start_offset }
    { original_distances := lap_distances,
      normalized_distances := s.accRev.reverse,
      track_length := track_length,
      wrap_points := s.wrapsRev.reverse }

/-- Shared scan of `map_to_track_position` / `_find_index_for_distance`:
running over the remaining values with current index `i`, best index `bi`
and best difference `bd`, updating only on a strictly smaller difference. -/
def scanBest (target : ℚ) : ℕ → List ℚ → ℕ → ℚ → ℕ
  | _, [], bi, _ => bi
  | i, d :: rest, bi, bd =>
      if |d - target| < bd then scanBest target (i + 1) rest i (|d - target|)
      else scanBest target (i + 1) rest bi bd

/-- `DistanceNormalizer.map_to_track_position`. -/
def mapToTrackPosition (normalized_distance : NormalizedDistance)
    (target_dist : ℚ) : ℕ :=
  match normalized_distance.normalized_distances with
  | [] => 0
  | d0 :: rest => scanBest target_dist 0 (d0 :: rest) 0 (|d0 - target_dist|)

/-- `app.models.signal.SignalSlice`, restricted to the fields the core
pipeline reads (`channel` and `values`; timestamps and the other metadata
fields are never consulted by the code under verification). -/
structure SignalSlice where
  channel : String := ""
  values : List ℚ
deriving DecidableEq, Repr

/-- The `Literal["corner", "straight", "complex"]` of `app.models.segment.Segment`. -/
inductive SegmentType where
  | corner
  | straight
  | complex
deriving DecidableEq, Repr

/-- `app.models.segment.Segment`. -/
structure Segment where
  segment_id : String
  segment_type : SegmentType
  start_dist : ℚ
  end_dist : ℚ
  entry_dist : Option ℚ
  apex_dist : Option ℚ
  exit_dist : Option ℚ
deriving DecidableEq, Repr

/-- `app.models.segment.TrackLayout`. -/
structure TrackLayout where
  track_name : String
  track_layout : Option String
  version : ℤ
  track_length : ℚ
  segments : List Segment
  reference_lap_number : ℤ
  reference_session_id : String
deriving DecidableEq, Repr

/-- `TrackLayoutService.CURVATURE_THRESHOLD` (0.003). -/
def CURVATURE_THRESHOLD : ℚ := 3 / 1000

/-- `TrackLayoutService.COMPLEX_DISTANCE_THRESHOLD` (30.0). -/
def COMPLEX_DISTANCE_THRESHOLD : ℚ := 30

/-- `TrackLayoutService.STRAIGHT_MIN_LENGTH` (20.0). -/
def STRAIGHT_MIN_LENGTH : ℚ := 20

/-- `TrackLayoutService.BRAKE_THRESHOLD` (0.1). -/
def BRAKE_THRESHOLD : ℚ := 1 / 10

/-- `TrackLayoutService.THROTTLE_FULL` (0.95). -/
def THROTTLE_FULL : ℚ := 95 / 100

/-- `TrackLayoutService._calculate_curvature` (absolute steering rate,
0 at index 0). -/
def calculateCurvature (values : List ℚ) : List ℚ :=
  if values.length < 2 then List.replicate values.length 0
  else (List.range values.length).map fun i =>
    if i = 0 then 0 else |values.getD i 0 - values.getD (i - 1) 0|

/-- A corner zone produced by `TrackLayoutService._detect_corner_zones`. -/
structure Zone where
  start_idx : ℕ
  end_idx : ℕ
  start_dist : ℚ
  end_dist : ℚ
deriving DecidableEq, Repr

/-- Scan state of `_detect_corner_zones`. -/
structure DczState where
  in_corner : Bool
  start_idx : ℕ
  start_dist : ℚ
  zones : List Zone
deriving DecidableEq, Repr

/-- One iteration of the `for i, curv in enumerate(curvature)` loop of
`_detect_corner_zones`. -/
def dczStep (normalized : NormalizedDistance) (threshold : ℚ) (s : DczState)
    (p : ℕ × ℚ) : DczState :=
  if p.2 > threshold ∧ ¬s.in_corner then
    { s with
      in_corner := true,
      start_idx := p.1,
      start_dist :=
        if normalized.normalized_distances.length > p.1 then
          normalized.normalized_distances.getD p.1 0
        else s.start_dist }
  else if p.2 ≤ threshold ∧ s.in_corner then
    let ed :=
      if normalized.normalized_distances.length > p.1 then
        (normalized.normalized_distances.getD p.1 0,
         normalized.normalized_distances.getD p.1 0 - s.start_dist)
      else (s.start_dist, 0)
    { s with
      in_corner := false,
      zones :=
        if ed.2 > 10 then
          s.zones ++ [⟨s.start_idx, p.1, s.start_dist, ed.1⟩]
        else s.zones }
  else s

/-- `TrackLayoutService._detect_corner_zones`.  The final still-open zone
reads `normalized.normalized_distances[start_idx]` without a bounds check;
an out-of-range access is the Python `IndexError`, modelled as `.error ()`. -/
def detectCornerZones (curvature : List ℚ) (normalized : NormalizedDistance)
    (threshold : ℚ) : Except Unit (List Zone) :=
  let s := curvature.enum.foldl (dczStep normalized threshold)
    { in_corner := false, start_idx := 0, start_dist := 0, zones := [] }
  if s.in_corner then
    match normalized.normalized_distances.get? s.start_idx with
    | some sd =>
        .ok (s.zones ++ [⟨s.start_idx, curvature.length - 1, sd, normalized.track_length⟩])
    | none => .error ()
  else .ok s.zones

/-- Apex scan of `_enhance_corner`: over indices `[start_idx, upper)`,
track the index of the strictly largest `|steering[i]|` (first occurrence),
starting from `(start_idx, 0.0)`. -/
def apexScan (values : List ℚ) (start_idx upper : ℕ) : ℕ :=
  ((List.range' start_idx (upper - start_idx)).foldl
    (fun st i =>
      if |values.getD i 0| > st.2 then (i, |values.getD i 0|) else st)
    (start_idx, (0 : ℚ))).1

/-- `TrackLayoutService.ENTRY_BRAKE_WINDOW` as used: `int(50.0)` samples. -/
def ENTRY_BRAKE_WINDOW : ℕ := 50

/-- `TrackLayoutService.EXIT_THROTTLE_WINDOW` as used: `int(30.0)` samples. -/
def EXIT_THROTTLE_WINDOW : ℕ := 30

/-- `TrackLayoutService._enhance_corner`.  The entry/exit scans read
`normalized.normalized_distances[i]` without a bounds check once a braking /
full-throttle sample is found; `.error ()` models that `IndexError`. -/
def enhanceCorner (zone : Zone) (normalized : NormalizedDistance)
    (steering brake throttle : Option SignalSlice) : Except Unit Segment := do
  let apex_dist : Option ℚ :=
    match steering with
    | some st =>
        if st.values.isEmpty then none
        else
          let apex_idx := apexScan st.values zone.start_idx
            (min (zone.end_idx + 1) st.values.length)
          if apex_idx < normalized.normalized_distances.length then
            some (normalized.normalized_distances.getD apex_idx 0)
          else none
    | none => none
  let entry_dist : Option ℚ ←
    match brake with
    | some b =>
        if b.values.isEmpty then pure none
        else
          let search_start := zone.start_idx - ENTRY_BRAKE_WINDOW
          let descending :=
            (List.range' (search_start + 1) (zone.start_idx - search_start)).reverse
          match descending.find? (fun i =>
              decide (i < b.values.length) &&
              decide (b.values.getD i 0 > BRAKE_THRESHOLD)) with
          | some i =>
              match normalized.normalized_distances.get? i with
              | some d => pure (some d)
              | none => Except.error ()
          | none => pure none
    | none => pure none
  let exit_dist : Option ℚ ←
    match throttle with
    | some t =>
        if t.values.isEmpty ∨ apex_dist = none then pure none
        else
          let search_end := min t.values.length (zone.end_idx + EXIT_THROTTLE_WINDOW)
          match (List.range' zone.start_idx (search_end - zone.start_idx)).find?
              (fun i =>
                decide (i < t.values.length) &&
                decide (t.values.getD i 0 ≥ THROTTLE_FULL)) with
          | some i =>
              match normalized.normalized_distances.get? i with
              | some d => pure (some d)
              | none => Except.error ()
          | none => pure none
    | none => pure none
  pure
    { segment_id := "",
      segment_type := .corner,
      start_dist := zone.start_dist,
      end_dist := zone.end_dist,
      entry_dist := entry_dist,
      apex_dist := apex_dist,
      exit_dist := exit_dist }

/-- The `while i < len(corners)` loop of `_merge_adjacent_corners`. -/
def mergeLoop (track_length : ℚ) : List Segment → List Segment
  | [] => []
  | [c] => [c]
  | current :: next_corner :: rest =>
      let gap := next_corner.start_dist - current.end_dist
      let gap := if gap < 0 then gap + track_length else gap
      if gap < COMPLEX_DISTANCE_THRESHOLD then
        { segment_id := "",
          segment_type := .complex,
          start_dist := current.start_dist,
          end_dist := next_corner.end_dist,
          entry_dist := current.entry_dist,
          apex_dist := none,
          exit_dist := next_corner.exit_dist } :: mergeLoop track_length rest
      else current :: mergeLoop track_length (next_corner :: rest)

/-- `TrackLayoutService._merge_adjacent_corners`. -/
def mergeAdjacentCorners (corners : List Segment) (track_length : ℚ) :
    List Segment :=
  if corners.length < 2 then corners else mergeLoop track_length corners

/-- Stable insertion used to model Python's stable `sorted`/`list.sort`:
`before y x = true` means `y` stays strictly before `x`, so `x` is placed
in front of the first element not strictly before it. -/
def insSorted (before : α → α → Bool) (x : α) : List α → List α
  | [] => [x]
  | y :: ys => if before y x then y :: insSorted before x ys else x :: y :: ys

/-- Stable sort (model of Python `sorted`, which is stable). -/
def stableSort (before : α → α → Bool) : List α → List α
  | [] => []
  | x :: xs => insSorted before x (stableSort before xs)

/-- `sorted(segments, key=lambda s: s.start_dist)`. -/
def sortByStart (segments : List Segment) : List Segment :=
  stableSort (fun y x => decide (y.start_dist < x.start_dist)) segments

/-- The straight segments `_fill_straights` constructs. -/
def straightSeg (s e : ℚ) : Segment :=
  { segment_id := "", segment_type := .straight, start_dist := s, end_dist := e,
    entry_dist := none, apex_dist := none, exit_dist := none }

/-- Inner loop of `_fill_straights`: emit each segment, inserting a straight
after it when the gap to the next one strictly exceeds `STRAIGHT_MIN_LENGTH`. -/
def interFill : List Segment → List Segment
  | [] => []
  | [s] => [s]
  | s :: next :: rest =>
      if next.start_dist - s.end_dist > STRAIGHT_MIN_LENGTH then
        s :: straightSeg s.end_dist next.start_dist :: interFill (next :: rest)
      else s :: interFill (next :: rest)

/-- `TrackLayoutService._fill_straights`. -/
def fillStraights (segments : List Segment) (track_length : ℚ) : List Segment :=
  if segments.isEmpty then
    [{ segment_id := "S1", segment_type := .straight, start_dist := 0,
       end_dist := track_length, entry_dist := none, apex_dist := none,
       exit_dist := none }]
  else
    let sorted_segments := sortByStart segments
    let first_start := (sorted_segments.headD (straightSeg 0 0)).start_dist
    let lead :=
      if first_start > STRAIGHT_MIN_LENGTH then [straightSeg 0 first_start]
      else []
    let last_end := (sorted_segments.getLastD (straightSeg 0 0)).end_dist
    let total_gap := (track_length - last_end) + first_start
    let trail :=
      if total_gap > STRAIGHT_MIN_LENGTH then [straightSeg last_end track_length]
      else []
    lead ++ interFill sorted_segments ++ trail

/-- Counter-passing loop of `_generate_segment_ids`. -/
def genIdsGo : ℕ → ℕ → ℕ → List Segment → List Segment
  | _, _, _, [] => []
  | t, s, c, seg :: rest =>
      match seg.segment_type with
      | .corner => { seg with segment_id := "T" ++ toString t } :: genIdsGo (t + 1) s c rest
      | .straight => { seg with segment_id := "S" ++ toString s } :: genIdsGo t (s + 1) c rest
      | .complex => { seg with segment_id := "C" ++ toString c } :: genIdsGo t s (c + 1) rest

/-- `TrackLayoutService._generate_segment_ids`. -/
def generateSegmentIds (segments : List Segment) : List Segment :=
  genIdsGo 1 1 1 segments

/-- Failure modes of `detect_layout`: the `ValueError` raised for a missing
or empty distance signal (the spec's `InputError`), and the uncaught
`IndexError` from unguarded list accesses. -/
inductive DetectError where
  | inputError
  | indexError
deriving DecidableEq, Repr

/-- `TrackLayoutService.detect_layout`. -/
def detectLayout (track_name : String) (track_layout : Option String)
    (steering_signal brake_signal throttle_signal speed_signal
      lap_dist_signal : Option SignalSlice)
    (lap_number : ℤ) (session_id : String) : Except DetectError TrackLayout :=
  match lap_dist_signal with
  | none => .error .inputError
  | some ld =>
    if ld.values.isEmpty then .error .inputError
    else
      let normalized := normalize ld.values 0
      let track_length := normalized.track_length
      let curvature :=
        match steering_signal with
        | none => List.replicate ld.values.length 0
        | some st =>
            if st.values.isEmpty then List.replicate ld.values.length 0
            else calculateCurvature st.values
      match detectCornerZones curvature normalized CURVATURE_THRESHOLD with
      | .error _ => .error .indexError
      | .ok corner_zones =>
        match corner_zones.mapM (fun z =>
            enhanceCorner z normalized steering_signal brake_signal
              throttle_signal) with
        | .error _ => .error .indexError
        | .ok enhanced_corners =>
          let merged_segments := mergeAdjacentCorners enhanced_corners track_length
          let all_segments := fillStraights merged_segments track_length
          let all_segments := sortByStart all_segments
          let all_segments := generateSegmentIds all_segments
          .ok
            { track_name := track_name,
              track_layout := track_layout,
              version := 1,
              track_length := track_length,
              segments := all_segments,
              reference_lap_number := lap_number,
              reference_session_id := session_id }

/-- `app.models.segment.SegmentMetrics`. -/
structure SegmentMetrics where
  segment_id : String
  lap_number : ℤ
  session_id : String
  entry_speed : Option ℚ
  mid_speed : Option ℚ
  exit_speed : Option ℚ
  min_speed : Option ℚ
  max_speed : Option ℚ
  segment_time : ℚ
  time_delta_to_reference : Option ℚ
  braking_distance : Option ℚ
  max_brake_pressure : Option ℚ
  throttle_application : Option ℚ
  steering_smoothness : Option ℚ
  avg_speed : Option ℚ
deriving DecidableEq, Repr

/-- `app.models.segment.LapSegmentMetrics`. -/
structure LapSegmentMetrics where
  session_id : String
  lap_number : ℤ
  layout_version : ℤ
  track_length : ℚ
  total_time : Option ℚ
  segments : List SegmentMetrics
deriving DecidableEq, Repr

/-- Python `max` of a non-empty list (`[]` falls back to the supplied seed,
a case the callers below never reach). -/
def listMax : List ℚ → ℚ
  | [] => 0
  | a :: rest => rest.foldl max a

/-- Python `min` of a non-empty list. -/
def listMin : List ℚ → ℚ
  | [] => 0
  | a :: rest => rest.foldl min a

/-- Stand-in for the binary64 `variance ** 0.5` of
`_calculate_steering_smoothness`.  The square root of a rational is
irrational in general and the Python value is itself an approximation; this
integer-square-root approximation keeps the model computable.  No claim
verified here depends on the value of this function. -/
def ratSqrt (q : ℚ) : ℚ :=
  (Nat.sqrt (q.num.toNat * q.den) : ℚ) / (q.den : ℚ)

/-- `MetricsCalculator._find_index_for_distance`.  The initialisation reads
`normalized_distances[0]` unguarded: `none` models the `IndexError` on an
empty list. -/
def findIndexForDistance (normalized : NormalizedDistance) (target_dist : ℚ) :
    Option ℕ :=
  match normalized.normalized_distances with
  | [] => none
  | d0 :: rest => some (scanBest target_dist 0 (d0 :: rest) 0 (|d0 - target_dist|))

/-- The resolved index set of `_calculate_segment_metrics`: `range(start,end)`,
or wrap-around `range(start,len) + range(0,end)` when `start_idx >= end_idx`.
`none` when either boundary lookup hits the empty-list `IndexError`. -/
def resolveIndices (normalized : NormalizedDistance) (segment : Segment) :
    Option (List ℕ) := do
  let start_idx ← findIndexForDistance normalized segment.start_dist
  let end_idx ← findIndexForDistance normalized segment.end_dist
  if start_idx ≥ end_idx then
    pure (List.range' start_idx (normalized.normalized_distances.length - start_idx)
      ++ List.range' 0 end_idx)
  else
    pure (List.range' start_idx (end_idx - start_idx))

/-- `MetricsCalculator._extract_values`. -/
def extractValues (signal : Option SignalSlice) (indices : List ℕ) : List ℚ :=
  match signal with
  | none => []
  | some s =>
      if s.values.isEmpty then []
      else (indices.filter (fun idx => decide (idx < s.values.length))).map
        (fun idx => s.values.getD idx 0)

/-- `MetricsCalculator._get_speed_at_distance`.  Only called after a
successful boundary lookup, so `normalized` is non-empty and the inner
`_find_index_for_distance` cannot fail. -/
def getSpeedAtDistance (speed_signal : Option SignalSlice)
    (normalized : NormalizedDistance) (target_dist : ℚ) : Option ℚ :=
  match speed_signal with
  | none => none
  | some sp =>
      if sp.values.isEmpty then none
      else
        match findIndexForDistance normalized target_dist with
        | none => none
        | some idx =>
            if idx < sp.values.length then some (sp.values.getD idx 0) else none

/-- `MetricsCalculator._calculate_segment_time`. -/
def calcSegmentTime (normalized : NormalizedDistance) (indices : List ℕ) : ℚ :=
  if indices.length < 2 then 0
  else
    let first_idx := indices.headD 0
    let last_idx := indices.getLastD 0
    if first_idx < normalized.normalized_distances.length ∧
        last_idx < normalized.normalized_distances.length then
      if indices.length > 0 then (indices.length : ℚ) / 60 else 0
    else 0

/-- `MetricsCalculator._calculate_braking_distance`.  The loop skips hits
whose mapped index is out of range of the normalized list and keeps
scanning (the bounds check guards the `return`, not the loop). -/
def calcBrakingDistance (brake_values : List ℚ)
    (normalized : NormalizedDistance) (indices : List ℕ) (entry_dist : ℚ) :
    Option ℚ :=
  if brake_values.isEmpty ∨ indices.isEmpty then none
  else
    match brake_values.enum.find? (fun p =>
        decide (p.2 > BRAKE_THRESHOLD) &&
        decide (indices.getD p.1 0 < normalized.normalized_distances.length)) with
    | some p =>
        some (entry_dist - normalized.normalized_distances.getD (indices.getD p.1 0) 0)
    | none => none

/-- `MetricsCalculator._calculate_throttle_application`. -/
def calcThrottleApplication (throttle_values : List ℚ)
    (normalized : NormalizedDistance) (indices : List ℕ) (exit_dist : ℚ) :
    Option ℚ :=
  if throttle_values.isEmpty ∨ indices.isEmpty then none
  else
    match throttle_values.enum.find? (fun p =>
        decide (p.2 ≥ THROTTLE_FULL) &&
        decide (indices.getD p.1 0 < normalized.normalized_distances.length)) with
    | some p =>
        some (normalized.normalized_distances.getD (indices.getD p.1 0) 0 - exit_dist)
    | none => none

/-- `MetricsCalculator._calculate_steering_smoothness` (population standard
deviation of the absolute steering rate; square root via `ratSqrt`). -/
def calcSteeringSmoothness (steering_values : List ℚ) : Option ℚ :=
  if steering_values.length < 2 then none
  else
    let rates := (List.range' 1 (steering_values.length - 1)).map
      (fun i => |steering_values.getD i 0 - steering_values.getD (i - 1) 0|)
    if rates.isEmpty then none
    else
      let mean_rate := rates.sum / (rates.length : ℚ)
      let variance := (rates.map (fun r => (r - mean_rate) ^ 2)).sum / (rates.length : ℚ)
      some (ratSqrt variance)

/-- The all-`None` metrics row `_calculate_segment_metrics` returns for an
empty resolved index set. -/
def emptySegmentMetrics (segment_id : String) : SegmentMetrics :=
  { segment_id := segment_id, lap_number := 0, session_id := "",
    segment_time := 0, entry_speed := none, mid_speed := none,
    exit_speed := none, min_speed := none, max_speed := none,
    time_delta_to_reference := none, braking_distance := none,
    max_brake_pressure := none, throttle_application := none,
    steering_smoothness := none, avg_speed := none }

/-- `MetricsCalculator._calculate_segment_metrics`.  `.error ()` is the
uncaught `IndexError` of the boundary lookup on an empty normalized list. -/
def calculateSegmentMetrics (segment : Segment)
    (normalized : NormalizedDistance) (signals : String → Option SignalSlice) :
    Except Unit SegmentMetrics :=
  match resolveIndices normalized segment with
  | none => .error ()
  | some indices =>
    if indices.isEmpty then .ok (emptySegmentMetrics segment.segment_id)
    else
      let speed_values := extractValues (signals "Speed") indices
      let brake_values := extractValues (signals "Brake") indices
      let throttle_values := extractValues (signals "Throttle") indices
      let steering_values := extractValues (signals "Steering") indices
      let mid_dist := (segment.start_dist + segment.end_dist) / 2
      .ok
        { segment_id := segment.segment_id,
          lap_number := 0,
          session_id := "",
          entry_speed := getSpeedAtDistance (signals "Speed") normalized segment.start_dist,
          mid_speed := getSpeedAtDistance (signals "Speed") normalized mid_dist,
          exit_speed := getSpeedAtDistance (signals "Speed") normalized segment.end_dist,
          min_speed := if speed_values.isEmpty then none else some (listMin speed_values),
          max_speed := if speed_values.isEmpty then none else some (listMax speed_values),
          segment_time := calcSegmentTime normalized indices,
          time_delta_to_reference := none,
          braking_distance :=
            calcBrakingDistance brake_values normalized indices segment.start_dist,
          max_brake_pressure :=
            if brake_values.isEmpty then none else some (listMax brake_values),
          throttle_application :=
            calcThrottleApplication throttle_values normalized indices segment.end_dist,
          steering_smoothness := calcSteeringSmoothness steering_values,
          avg_speed :=
            if speed_values.isEmpty then none
            else some (speed_values.sum / (speed_values.length : ℚ)) }

/-- The `ref_lookup` dict of `_calculate_time_deltas`: built by insertion, a
later segment with the same id overwrites an earlier one. -/
def refLookup (segs : List SegmentMetrics) (segment_id : String) :
    Option SegmentMetrics :=
  segs.reverse.find? (fun s => decide (s.segment_id = segment_id))

/-- `MetricsCalculator._calculate_time_deltas`. -/
def calcTimeDeltas (segment_metrics : List SegmentMetrics)
    (reference_metrics : LapSegmentMetrics) : List SegmentMetrics :=
  segment_metrics.map fun m =>
    match refLookup reference_metrics.segments m.segment_id with
    | some ref_seg =>
        if ref_seg.segment_time > 0 then
          { m with time_delta_to_reference := some (m.segment_time - ref_seg.segment_time) }
        else m
    | none => m

/-- Python truthy `or`: `lap_time or total_segment_time` (both `None` and
`0.0` fall back). -/
def pyOrQ (a : Option ℚ) (b : ℚ) : ℚ :=
  match a with
  | none => b
  | some x => if x = 0 then b else x

/-- Failure modes of `calculate_lap_metrics`: the `ValueError` for a missing
`LapDist` entry (the spec's `InputError`) and the uncaught `IndexError`. -/
inductive MetricsError where
  | inputError
  | indexError
deriving DecidableEq, Repr

/-- `MetricsCalculator.calculate_lap_metrics`. -/
def calculateLapMetrics (session_id : String) (lap_number : ℤ)
    (layout : TrackLayout) (signals : String → Option SignalSlice)
    (lap_time : Option ℚ := none)
    (reference_metrics : Option LapSegmentMetrics := none) :
    Except MetricsError LapSegmentMetrics :=
  match signals "LapDist" with
  | none => .error .inputError
  | some lap_dist_signal =>
    let normalized := normalize lap_dist_signal.values 0
    match layout.segments.mapM
        (fun seg => calculateSegmentMetrics seg normalized signals) with
    | .error _ => .error .indexError
    | .ok segment_metrics =>
      let total_segment_time := (segment_metrics.map (·.segment_time)).sum
      let segment_metrics :=
        match reference_metrics with
        | some ref => calcTimeDeltas segment_metrics ref
        | none => segment_metrics
      .ok
        { session_id := session_id,
          lap_number := lap_number,
          layout_version := layout.version,
          track_length := layout.track_length,
          total_time := some (pyOrQ lap_time total_segment_time),
          segments := segment_metrics }

/-- `app.models.session.Lap`. -/
structure Lap where
  lap_number : ℤ
  start_time : ℚ
  end_time : Option ℚ := none
  lap_time : Option ℚ := none
  valid : Bool := true
deriving DecidableEq, Repr

/-- `ReferenceLapSelector.MAX_STEERING_RATE` (500.0). -/
def MAX_STEERING_RATE : ℚ := 500

/-- `ReferenceLapSelector.STEERING_CONSISTENCY_THRESHOLD` (200.0). -/
def STEERING_CONSISTENCY_THRESHOLD : ℚ := 200

/-- `ReferenceLapSelector.MIN_SAMPLES` (100). -/
def MIN_SAMPLES : ℕ := 100

/-- Python truthiness of `lap.lap_time` (`None` and `0.0` are falsy). -/
def lapTimeTruthy (lap : Lap) : Bool :=
  match lap.lap_time with
  | none => false
  | some t => decide (t ≠ 0)

/-- `ReferenceLapSelector._analyze_steering`. -/
def analyzeSteering (steering_signal : SignalSlice) : ℚ :=
  let values := steering_signal.values
  if values.length < 2 then 0
  else
    let rates := (List.range' 1 (values.length - 1)).map
      (fun i => |values.getD i 0 - values.getD (i - 1) 0|)
    let max_rate := if rates.isEmpty then 0 else listMax rates
    let avg_rate := if rates.isEmpty then 0 else rates.sum / (rates.length : ℚ)
    if max_rate > MAX_STEERING_RATE then 0
    else if avg_rate < STEERING_CONSISTENCY_THRESHOLD then 30
    else 15

/-- Zone-counting loop of `ReferenceLapSelector._analyze_braking`. -/
def brakeZoneCount (values : List ℚ) : ℕ :=
  (values.foldl
    (fun st val =>
      if decide (val > BRAKE_THRESHOLD) && !st.2 then (st.1 + 1, true)
      else if val ≤ BRAKE_THRESHOLD then (st.1, false)
      else st)
    ((0 : ℕ), false)).1

/-- `ReferenceLapSelector._analyze_braking`. -/
def analyzeBraking (brake_signal : SignalSlice) : ℚ :=
  let values := brake_signal.values
  if values.length < MIN_SAMPLES then 0
  else
    let braking_zones := brakeZoneCount values
    if 6 ≤ braking_zones ∧ braking_zones ≤ 20 then 20
    else if braking_zones > 30 then 0
    else 10

/-- `ReferenceLapSelector._calculate_lap_score`. -/
def calcLapScore (lap : Lap) (best_time : ℚ)
    (steering_signal brake_signal : Option SignalSlice) : ℚ :=
  if ¬lapTimeTruthy lap then 0
  else
    let lap_time := (lap.lap_time.getD 0)
    let base := 100 * (best_time / lap_time) + (if lap.valid then 50 else 0)
    let steering_score :=
      match steering_signal with
      | some st => if st.values.length ≥ MIN_SAMPLES then analyzeSteering st else 0
      | none => 0
    let brake_score :=
      match brake_signal with
      | some b => if b.values.length ≥ MIN_SAMPLES then analyzeBraking b else 0
      | none => 0
    base + steering_score + brake_score

/-- `ReferenceLapSelector.select_reference_lap`. -/
def selectReferenceLap (laps : List Lap)
    (steering_signal brake_signal : Option SignalSlice := none)
    (preferred_lap : Option ℤ := none) : Option ℤ :=
  if laps.isEmpty then none
  else
    let preferred_hit :=
      match preferred_lap with
      | some p => laps.any (fun l => decide (l.lap_number = p) && l.valid)
      | none => false
    match preferred_lap, preferred_hit with
    | some p, true => some p
    | _, _ =>
      let valid_laps := laps.filter
        (fun l => l.valid && lapTimeTruthy l && decide (0 < l.lap_time.getD 0))
      if valid_laps.isEmpty then none
      else
        let best_time := listMin (valid_laps.filterMap (·.lap_time))
        let lap_scores := (valid_laps.filter lapTimeTruthy).map
          (fun l => (l.lap_number,
            calcLapScore l best_time steering_signal brake_signal))
        if lap_scores.isEmpty then none
        else
          let sorted := stableSort
            (fun y x => decide (y.2 > x.2)) lap_scores
          some (sorted.headD (0, 0)).1

/-- The Tier-2 lap-metrics cache: one entry per `(session_id, lap_number)`
parquet file, holding the saved `LapSegmentMetrics`. -/
abbrev Store := List (String × ℤ × LapSegmentMetrics)

/-- Existence + read of a Tier-2 cache file. -/
def storeLookup (st : Store) (session_id : String) (lap_number : ℤ) :
    Option LapSegmentMetrics :=
  (st.find? (fun e => decide (e.1 = session_id) && decide (e.2.1 = lap_number))).map
    (·.2.2)

/-- Deleting a Tier-2 cache file (`invalidate_lap_metrics`). -/
def storeDelete (st : Store) (session_id : String) (lap_number : ℤ) : Store :=
  st.filter (fun e => !(decide (e.1 = session_id) && decide (e.2.1 = lap_number)))

/-- Overwriting a Tier-2 cache file (`save_lap_metrics`). -/
def storeSave (st : Store) (metrics : LapSegmentMetrics) : Store :=
  (metrics.session_id, metrics.lap_number, metrics) ::
    storeDelete st metrics.session_id metrics.lap_number

/-- Rebuilding a `LapSegmentMetrics` from the cached tables in
`SegmentCache.get_lap_metrics`: identifiers come from the query arguments,
`total_time` is `None` when the stored value is falsy, and the segment rows
come back `ORDER BY segment_id` (modelled as a stable sort) with the
session/lap fields overwritten. -/
def cacheReconstruct (session_id : String) (lap_number : ℤ)
    (layout_version : ℤ) (stored : LapSegmentMetrics) : LapSegmentMetrics :=
  { session_id := session_id,
    lap_number := lap_number,
    layout_version := layout_version,
    track_length := stored.track_length,
    total_time :=
      match stored.total_time with
      | none => none
      | some t => if t = 0 then none else some t,
    segments :=
      (stableSort (fun y x => decide (y.segment_id < x.segment_id))
        stored.segments).map
        (fun s => { s with lap_number := lap_number, session_id := session_id }) }

/-- `SegmentCache.get_lap_metrics`: a missing file is a miss; a stored
layout version different from the requested one deletes the file and
reports a miss; otherwise the reconstructed metrics are returned. -/
def cacheGetLapMetrics (st : Store) (session_id : String) (lap_number : ℤ)
    (layout_version : ℤ) : Option LapSegmentMetrics × Store :=
  match storeLookup st session_id lap_number with
  | none => (none, st)
  | some stored =>
      if stored.layout_version ≠ layout_version then
        (none, storeDelete st session_id lap_number)
      else
        (some (cacheReconstruct session_id lap_number layout_version stored), st)

/-- `SegmentService._find_lap`: raises `ValueError` when absent. -/
def findLap (laps : List Lap) (lap_number : ℤ) : Except Unit Lap :=
  match laps.find? (fun l => decide (l.lap_number = lap_number)) with
  | some lap => .ok lap
  | none => .error ()

/-- `signal_map = {s.channel: s for s in signals}` — a later slice with the
same channel name overwrites an earlier one. -/
def buildSignalMap (signals : List SignalSlice) : String → Option SignalSlice :=
  fun c => signals.reverse.find? (fun s => decide (s.channel = c))

/-- Failure modes of `SegmentService.get_lap_metrics` after the layout has
been obtained: the `ValueError` of `_find_lap`, and the errors propagated
from `calculate_lap_metrics`. -/
inductive ServiceError where
  | lapNotFound
  | metrics (e : MetricsError)
deriving DecidableEq, Repr

/-- `SegmentService.get_lap_metrics` specialised to
`lap_number = layout.reference_lap_number`: the reference-metrics fetch is
skipped (`lap_number != layout.reference_lap_number` is false), so the
metrics are computed with `reference_metrics=None`.  The layout, the
signal slices per lap and the lap list are the values supplied by the
upstream collaborators (`get_or_create_layout`, `signal_service`,
`get_laps`). -/
def serviceGetLapMetricsRef (st : Store) (session_id : String)
    (layout : TrackLayout) (lapSignals : ℤ → List SignalSlice)
    (laps : List Lap) (force_recompute : Bool) :
    Store × Except ServiceError LapSegmentMetrics :=
  let ref := layout.reference_lap_number
  let cached :=
    if force_recompute then ((none : Option LapSegmentMetrics), st)
    else cacheGetLapMetrics st session_id ref layout.version
  match cached.1 with
  | some m => (cached.2, .ok m)
  | none =>
    let signal_map := buildSignalMap (lapSignals ref)
    match findLap laps ref with
    | .error _ => (cached.2, .error .lapNotFound)
    | .ok lap =>
      match calculateLapMetrics session_id ref layout signal_map lap.lap_time
          none with
      | .error e => (cached.2, .error (.metrics e))
      | .ok metrics => (storeSave cached.2 metrics, .ok metrics)

/-- `SegmentService.get_lap_metrics`.  The recursive reference-metrics call
has `lap_number = layout.reference_lap_number` and therefore does not recurse
further; it is unrolled into `serviceGetLapMetricsRef`.  Its `try/except`
absorbs any error of the nested call (keeping its cache side effects). -/
def serviceGetLapMetrics (st : Store) (session_id : String) (lap_number : ℤ)
    (layout : TrackLayout) (lapSignals : ℤ → List SignalSlice)
    (laps : List Lap) (force_recompute : Bool := false) :
    Store × Except ServiceError LapSegmentMetrics :=
  if lap_number = layout.reference_lap_number then
    serviceGetLapMetricsRef st session_id layout lapSignals laps force_recompute
  else
    let cached :=
      if force_recompute then ((none : Option LapSegmentMetrics), st)
      else cacheGetLapMetrics st session_id lap_number layout.version
    match cached.1 with
    | some m => (cached.2, .ok m)
    | none =>
      let signal_map := buildSignalMap (lapSignals lap_number)
      match findLap laps lap_number with
      | .error _ => (cached.2, .error .lapNotFound)
      | .ok lap =>
        let refFetch :=
          serviceGetLapMetricsRef cached.2 session_id layout lapSignals laps
            false
        let reference_metrics : Option LapSegmentMetrics :=
          match refFetch.2 with
          | .ok m => some m
          | .error _ => none
        match calculateLapMetrics session_id lap_number layout signal_map
            lap.lap_time reference_metrics with
        | .error e => (refFetch.1, .error (.metrics e))
        | .ok metrics => (storeSave refFetch.1 metrics, .ok metrics)

/-! ### Helper lemmas -/

/-- Structural decidable equality for `Except` (kept `Eq.rec`-free so that
concrete results evaluate inside `decide`). -/
instance exceptDecEq {ε α : Type*} [DecidableEq ε] [DecidableEq α] :
    DecidableEq (Except ε α)
  | .error e1, .error e2 =>
      match decEq e1 e2 with
      | isTrue h => isTrue (h ▸ rfl)
      | isFalse h => isFalse (fun hh => h (Except.error.inj hh))
  | .error _, .ok _ => isFalse (fun hh => Except.noConfusion hh)
  | .ok _, .error _ => isFalse (fun hh => Except.noConfusion hh)
  | .ok a1, .ok a2 =>
      match decEq a1 a2 with
      | isTrue h => isTrue (h ▸ rfl)
      | isFalse h => isFalse (fun hh => h (Except.ok.inj hh))

theorem getD_mem_of_lt {l : List ℚ} {i : ℕ} (h : i < l.length) :
    l.getD i 0 ∈ l := by
  rw [List.getD_eq_get _ _ h]
  exact List.get_mem l i h

theorem getLastD_mem_of_ne_nil {α : Type*} (l : List α) (d : α) (h : l ≠ []) :
    l.getLastD d ∈ l := by
  cases l with
  | nil => exact absurd rfl h
  | cons a t =>
      rw [List.getLastD_cons]
      exact List.getLastD_mem_cons t a

/-- Range and minimality of the `scanBest` loop: starting from a best index
`bi` whose difference is `bd`, with all earlier indices strictly worse than
the indices before `bi` and at least as bad up to `i`, the scan returns the
first global minimiser. -/
theorem scanBest_go (t : ℚ) (L : List ℚ) :
    ∀ (rest : List ℚ) (i bi : ℕ) (bd : ℚ), rest = L.drop i → bi < L.length →
    bd = |L.getD bi 0 - t| →
    (∀ j, j < bi → bd < |L.getD j 0 - t|) →
    (∀ j, j < i → bd ≤ |L.getD j 0 - t|) →
    scanBest t i rest bi bd < L.length ∧
    (∀ j, j < L.length →
      |L.getD (scanBest t i rest bi bd) 0 - t| ≤ |L.getD j 0 - t|) ∧
    (∀ j, j < scanBest t i rest bi bd →
      |L.getD (scanBest t i rest bi bd) 0 - t| < |L.getD j 0 - t|) := by
  intro rest
  induction rest with
  | nil =>
      intro i bi bd hrest hbi hbd hstrict hall
      have hlen : L.length ≤ i := by
        by_contra hc
        push_neg at hc
        have h0 : (L.drop i).length = L.length - i := List.length_drop i L
        rw [← hrest] at h0
        simp only [List.length_nil] at h0
        omega
      refine ⟨hbi, ?_, ?_⟩
      · intro j hj
        have := hall j (lt_of_lt_of_le hj hlen)
        simpa [scanBest, hbd] using this
      · intro j hj
        have := hstrict j (by simpa [scanBest] using hj)
        simpa [scanBest, hbd] using this
  | cons d rest' ih =>
      intro i bi bd hrest hbi hbd hstrict hall
      have hi : i < L.length := by
        by_contra hc
        push_neg at hc
        rw [List.drop_eq_nil_of_le hc] at hrest
        exact List.cons_ne_nil d rest' hrest
      have hget : L.getD i 0 = d := by
        have h0 : (L.drop i).get? 0 = some d := by rw [← hrest]; rfl
        rw [List.get?_drop] at h0
        rw [List.getD_eq_get?]
        rw [show i + 0 = i from rfl] at h0
        rw [h0]
        rfl
      have hrest' : rest' = L.drop (i + 1) := by
        have h1 : (L.drop i).tail = L.drop (i + 1) := List.tail_drop L i
        rw [← hrest] at h1
        simpa using h1
      simp only [scanBest]
      by_cases hcmp : |d - t| < bd
      · rw [if_pos hcmp]
        refine ih (i + 1) i (|d - t|) hrest' hi (by rw [hget]) ?_ ?_
        · intro j hj
          exact lt_of_lt_of_le hcmp (hall j hj)
        · intro j hj
          rcases Nat.lt_succ_iff_lt_or_eq.mp hj with h | h
          · exact le_of_lt (lt_of_lt_of_le hcmp (hall j h))
          · subst h
            rw [hget]
      · rw [if_neg hcmp]
        refine ih (i + 1) bi bd hrest' hbi hbd hstrict ?_
        intro j hj
        rcases Nat.lt_succ_iff_lt_or_eq.mp hj with h | h
        · exact hall j h
        · subst h
          rw [hget]
          exact not_lt.mp hcmp

theorem scanBest_cons_spec (t : ℚ) (d0 : ℚ) (rest : List ℚ) :
    scanBest t 0 (d0 :: rest) 0 (|d0 - t|) < (d0 :: rest).length ∧
    (∀ j, j < (d0 :: rest).length →
      |(d0 :: rest).getD (scanBest t 0 (d0 :: rest) 0 (|d0 - t|)) 0 - t| ≤
        |(d0 :: rest).getD j 0 - t|) ∧
    (∀ j, j < scanBest t 0 (d0 :: rest) 0 (|d0 - t|) →
      |(d0 :: rest).getD (scanBest t 0 (d0 :: rest) 0 (|d0 - t|)) 0 - t| <
        |(d0 :: rest).getD j 0 - t|) := by
  refine scanBest_go t (d0 :: rest) (d0 :: rest) 0 0 (|d0 - t|) rfl (by simp) rfl
    ?_ ?_
  · intro j hj
    exact absurd hj (Nat.not_lt_zero j)
  · intro j hj
    exact absurd hj (Nat.not_lt_zero j)

theorem findIndexForDistance_lt {nd : NormalizedDistance} {t : ℚ} {idx : ℕ}
    (h : findIndexForDistance nd t = some idx) :
    idx < nd.normalized_distances.length := by
  unfold findIndexForDistance at h
  cases hnd : nd.normalized_distances with
  | nil => rw [hnd] at h; exact absurd h (by simp)
  | cons d0 rest =>
      rw [hnd] at h
      have h3 : scanBest t 0 (d0 :: rest) 0 (|d0 - t|) = idx := Option.some.inj h
      rw [← h3]
      exact (scanBest_cons_spec t d0 rest).1

theorem mem_of_mem_insSorted {α : Type*} {before : α → α → Bool} {x y : α}
    {l : List α} (h : y ∈ insSorted before x l) : y = x ∨ y ∈ l := by
  induction l with
  | nil => simpa [insSorted] using h
  | cons a t ih =>
      rw [insSorted] at h
      by_cases hb : before a x
      · rw [if_pos hb] at h
        rcases List.mem_cons.mp h with h1 | h1
        · exact Or.inr (by rw [h1]; exact List.mem_cons_self a t)
        · rcases ih h1 with h2 | h2
          · exact Or.inl h2
          · exact Or.inr (List.mem_cons_of_mem a h2)
      · rw [if_neg hb] at h
        rcases List.mem_cons.mp h with h1 | h1
        · exact Or.inl h1
        · exact Or.inr h1

theorem mem_of_mem_stableSort {α : Type*} {before : α → α → Bool} {y : α} :
    ∀ {l : List α}, y ∈ stableSort before l → y ∈ l := by
  intro l
  induction l with
  | nil => intro h; simpa [stableSort] using h
  | cons x xs ih =>
      intro h
      rw [stableSort] at h
      rcases mem_of_mem_insSorted h with h1 | h1
      · exact h1 ▸ List.mem_cons_self x xs
      · exact List.mem_cons_of_mem x (ih h1)

theorem self_mem_insSorted {α : Type*} (before : α → α → Bool) (x : α) :
    ∀ l : List α, x ∈ insSorted before x l := by
  intro l
  induction l with
  | nil => simp [insSorted]
  | cons a t ih =>
      rw [insSorted]
      by_cases hb : before a x
      · rw [if_pos hb]
        exact List.mem_cons_of_mem a ih
      · rw [if_neg hb]
        exact List.mem_cons_self x (a :: t)

theorem mem_insSorted_of_mem {α : Type*} {before : α → α → Bool} {x y : α} :
    ∀ {l : List α}, y ∈ l → y ∈ insSorted before x l := by
  intro l
  induction l with
  | nil => intro h; exact absurd h (List.not_mem_nil y)
  | cons a t ih =>
      intro h
      rw [insSorted]
      by_cases hb : before a x
      · rw [if_pos hb]
        rcases List.mem_cons.mp h with h1 | h1
        · exact h1 ▸ List.mem_cons_self a _
        · exact List.mem_cons_of_mem a (ih h1)
      · rw [if_neg hb]
        exact List.mem_cons_of_mem x h

theorem mem_stableSort_of_mem {α : Type*} {before : α → α → Bool} {y : α} :
    ∀ {l : List α}, y ∈ l → y ∈ stableSort before l := by
  intro l
  induction l with
  | nil => intro h; exact absurd h (List.not_mem_nil y)
  | cons x xs ih =>
      intro h
      rw [stableSort]
      rcases List.mem_cons.mp h with h1 | h1
      · exact h1 ▸ self_mem_insSorted before x (stableSort before xs)
      · exact mem_insSorted_of_mem (ih h1)

theorem stableSort_eq_of_sorted {α : Type*} (before : α → α → Bool) :
    ∀ l : List α, List.Chain' (fun a b => before b a = false) l →
      stableSort before l = l := by
  intro l
  induction l with
  | nil => intro _; rfl
  | cons x xs ih =>
      intro h
      rw [stableSort, ih ((List.chain'_cons'.mp h).2)]
      cases xs with
      | nil => rfl
      | cons y t =>
          have h1 : before y x = false := (List.chain'_cons.mp h).1
          simp [insSorted, h1]

/-- Claim C8: on laps `[{1, valid, 100}, {2, valid, 95}, {3, invalid, 90}]`
with no steering/brake signal and no preferred lap, `select_reference_lap`
returns 2; lap 3 is excluded as invalid and lap 2 attains the highest score
`100 ⬝ (95/95) + 50 = 150` (against `145` for lap 1). -/
theorem C8_select_reference_lap :
    selectReferenceLap
      [{ lap_number := 1, start_time := 0, lap_time := some 100, valid := true },
       { lap_number := 2, start_time := 0, lap_time := some 95, valid := true },
       { lap_number := 3, start_time := 0, lap_time := some 90, valid := false }]
      none none none = some 2 ∧
    calcLapScore
      { lap_number := 1, start_time := 0, lap_time := some 100, valid := true }
      95 none none = 145 ∧
    calcLapScore
      { lap_number := 2, start_time := 0, lap_time := some 95, valid := true }
      95 none none = 150 ∧
    (145 : ℚ) < 150 := by
  refine ⟨by with_unfolding_all decide, by with_unfolding_all decide,
    by with_unfolding_all decide, by norm_num⟩

/-- Claim C10: `map_to_track_position` is total and in-bounds — it returns 0
on an empty `normalized_distances`, and otherwise an index `< length` that is
the first index minimising `|normalized_distances[i] - target_dist|` (ties
keep the earliest index). -/
theorem C10_map_to_track_position_total (nd : NormalizedDistance) (target : ℚ) :
    (nd.normalized_distances = [] → mapToTrackPosition nd target = 0) ∧
    (nd.normalized_distances ≠ [] →
      mapToTrackPosition nd target < nd.normalized_distances.length ∧
      (∀ j, j < nd.normalized_distances.length →
        |nd.normalized_distances.getD (mapToTrackPosition nd target) 0 - target| ≤
          |nd.normalized_distances.getD j 0 - target|) ∧
      (∀ j, j < mapToTrackPosition nd target →
        |nd.normalized_distances.getD (mapToTrackPosition nd target) 0 - target| <
          |nd.normalized_distances.getD j 0 - target|)) := by
  constructor
  · intro h
    unfold mapToTrackPosition
    rw [h]
  · intro h
    cases hnd : nd.normalized_distances with
    | nil => exact absurd hnd h
    | cons d0 rest =>
        have hmap : mapToTrackPosition nd target =
            scanBest target 0 (d0 :: rest) 0 (|d0 - target|) := by
          unfold mapToTrackPosition
          rw [hnd]
        rw [hmap]
        exact scanBest_cons_spec target d0 rest

/-- Witness for C10 at `normalized_distances = [0, 5, 10, 15]`,
`target_dist = 7` (the minimiser is index 1). -/
theorem C10_witness :
    mapToTrackPosition
      { original_distances := [], normalized_distances := [0, 5, 10, 15],
        track_length := 0, wrap_points := [] } 7 <
      ([0, 5, 10, 15] : List ℚ).length ∧
    |([0, 5, 10, 15] : List ℚ).getD
        (mapToTrackPosition
          { original_distances := [], normalized_distances := [0, 5, 10, 15],
            track_length := 0, wrap_points := [] } 7) 0 - 7| ≤
      |([0, 5, 10, 15] : List ℚ).getD 2 0 - 7| := by
  have h := (C10_map_to_track_position_total
    { original_distances := [], normalized_distances := [0, 5, 10, 15],
      track_length := 0, wrap_points := [] } 7).2 (by decide)
  exact ⟨h.1, h.2.1 2 (by decide)⟩

theorem take_map_reverse_succ (lap : List ℚ) (f : ℚ → ℚ) (m : ℕ)
    (hm : m < lap.length) :
    ((lap.take (m + 1)).map f).reverse =
      f (lap.getD m 0) :: ((lap.take m).map f).reverse := by
  rw [List.take_succ]
  have h : lap[m]? = some (lap.getD m 0) := by
    rw [List.getElem?_eq_getElem hm, List.getD_eq_getElem _ _ hm]
  rw [h]
  simp

/-- Per-sample loop of `normalize` on a prefix with only small drops (no
consecutive drop above `NEGATIVE_JUMP_THRESHOLD`) and no negative samples:
every sample is emitted as `sample + offset`, no wrap is registered and the
offset never changes. -/
theorem foldl_normStep_nojump (lap : List ℚ) (tl off : ℚ)
    (hnn : ∀ d ∈ lap, 0 ≤ d) :
    ∀ b, b ≤ lap.length →
    (∀ i, i < b → 0 < i →
      lap.getD (i - 1) 0 - lap.getD i 0 ≤ NEGATIVE_JUMP_THRESHOLD) →
    (List.range b).foldl (normStep lap tl)
        { accRev := [], wrapsRev := [], off := off } =
      { accRev := ((lap.take b).map (· + off)).reverse, wrapsRev := [],
        off := off } := by
  intro b
  induction b with
  | zero => intro _ _; simp
  | succ m ih =>
      intro hb hsmall
      rw [List.range_succ, List.foldl_append,
        ih (Nat.le_of_succ_le hb) (fun i h1 h2 => hsmall i (Nat.lt_succ_of_lt h1) h2)]
      simp only [List.foldl_cons, List.foldl_nil]
      have hm : m < lap.length := hb
      have hd0 : 0 ≤ lap.getD m 0 := hnn _ (getD_mem_of_lt hm)
      simp only [normStep]
      rw [if_neg (not_lt.mpr hd0)]
      by_cases h0 : m = 0
      · subst h0
        rw [if_neg (by simp)]
        rw [take_map_reverse_succ lap _ 0 hm]
      · have h1 : 0 < m := Nat.pos_of_ne_zero h0
        have hprev : 0 ≤ lap.getD (m - 1) 0 :=
          hnn _ (getD_mem_of_lt (by omega))
        rw [if_pos ⟨h1, hprev⟩]
        have hdrop : lap.getD (m - 1) 0 - lap.getD m 0 ≤ NEGATIVE_JUMP_THRESHOLD :=
          hsmall m (Nat.lt_succ_self m) h1
        rw [NEGATIVE_JUMP_THRESHOLD] at hdrop
        have hw : ¬(lap.getD (m - 1) 0 - lap.getD m 0 > WRAP_THRESHOLD) := by
          rw [WRAP_THRESHOLD]
          push_neg
          linarith
        rw [if_neg hw]
        have ha : ¬(lap.getD m 0 < lap.getD (m - 1) 0 - NEGATIVE_JUMP_THRESHOLD) := by
          rw [NEGATIVE_JUMP_THRESHOLD]
          push_neg
          linarith
        rw [if_neg ha]
        rw [take_map_reverse_succ lap _ m hm]

/-- Claim C1 as stated is false: a small consecutive drop (here 5, well
below `WRAP_THRESHOLD`) passes through unchanged, so the output `[100, 95]`
is not monotonically non-decreasing; moreover a single-sample input `[5]`
normalizes to `[lap_start_offset]`, not `[raw[0] + lap_start_offset]`. -/
theorem C1_counterexample :
    ¬(∀ (lap : List ℚ) (off : ℚ), lap ≠ [] →
        (∀ d ∈ lap, 0 ≤ d) →
        (∀ i, i < lap.length → 0 < i →
          lap.getD (i - 1) 0 - lap.getD i 0 ≤ WRAP_THRESHOLD) →
        List.Chain' (· ≤ ·) (normalize lap off).normalized_distances ∧
        ∀ i, i < lap.length →
          (normalize lap off).normalized_distances.getD i 0 =
            lap.getD i 0 + off) ∧
    (normalize [5] 0).normalized_distances = [0] ∧
    ([5] : List ℚ).getD 0 0 + 0 = 5 ∧ (0 : ℚ) ≠ 5 := by
  refine ⟨?_, by with_unfolding_all decide, by with_unfolding_all decide,
    by norm_num⟩
  intro h
  have h2 := h [100, 95] 0 (by simp)
    (by with_unfolding_all decide) (by with_unfolding_all decide)
  have h3 : (normalize [100, 95] 0).normalized_distances = [100, 95] := by
    with_unfolding_all decide
  have h4 := h2.1
  rw [h3, List.chain'_cons] at h4
  have : ¬((100 : ℚ) ≤ 95) := by norm_num
  exact this h4.1

/-- Claim C1, amended: for a non-empty, elementwise non-negative and
non-decreasing `lap_distances` (no consecutive drop at all, rather than
merely no drop above `WRAP_THRESHOLD`), the normalized output is
non-decreasing; with at least two samples it equals
`lap_distances[i] + lap_start_offset` elementwise, while a single-sample
input yields `[lap_start_offset]`. -/
theorem C1_amended (lap : List ℚ) (off : ℚ) (hne : lap ≠ [])
    (hnn : ∀ d ∈ lap, 0 ≤ d)
    (hmono : List.Chain' (· ≤ ·) lap) :
    List.Chain' (· ≤ ·) (normalize lap off).normalized_distances ∧
    (2 ≤ lap.length →
      ∀ i, i < lap.length →
        (normalize lap off).normalized_distances.getD i 0 = lap.getD i 0 + off) ∧
    (lap.length = 1 → (normalize lap off).normalized_distances = [off]) := by
  have hlen1 : 1 ≤ lap.length := by
    cases lap with
    | nil => exact absurd rfl hne
    | cons a t => simp
  by_cases hlen : lap.length < 2
  · have hlen1' : lap.length = 1 := by omega
    have hnorm : (normalize lap off).normalized_distances = [off] := by
      unfold normalize
      rw [if_neg (by simp [List.isEmpty_iff]; exact hne), if_pos hlen]
    refine ⟨?_, ?_, fun _ => hnorm⟩
    · rw [hnorm]
      simp
    · intro h2
      omega
  · -- at least two samples
    have hsmall : ∀ i, i < lap.length → 0 < i →
        lap.getD (i - 1) 0 - lap.getD i 0 ≤ NEGATIVE_JUMP_THRESHOLD := by
      intro i hi h0
      have hstep : lap.getD (i - 1) 0 ≤ lap.getD i 0 := by
        have hc := List.chain'_iff_get.mp hmono (i - 1) (by omega)
        have e1 : i - 1 + 1 = i := by omega
        have g1 : lap.getD (i - 1) 0 = lap.get ⟨i - 1, by omega⟩ :=
          List.getD_eq_get _ _ _
        have g2 : lap.getD i 0 = lap.get ⟨i, hi⟩ := List.getD_eq_get _ _ _
        have g3 : lap.get ⟨i - 1 + 1, by omega⟩ = lap.get ⟨i, hi⟩ := by
          congr 1
          exact Fin.ext e1
        rw [g1, g2, ← g3]
        exact hc
      rw [NEGATIVE_JUMP_THRESHOLD]
      linarith
    have hnorm : (normalize lap off).normalized_distances =
        lap.map (· + off) := by
      unfold normalize
      rw [if_neg (by simp [List.isEmpty_iff]; exact hne), if_neg hlen]
      simp only
      rw [foldl_normStep_nojump lap (estimateTrackLength lap) off hnn
        lap.length (le_refl _) hsmall]
      simp [List.take_length]
    refine ⟨?_, ?_, ?_⟩
    · rw [hnorm]
      rw [List.chain'_map]
      exact hmono.imp (fun a b hab => by simpa using hab)
    · intro _ i hi
      rw [hnorm]
      rw [List.getD_eq_get _ _ (by simpa using hi), List.getD_eq_get _ _ hi,
        List.get_map]
    · intro h1
      omega

/-- Witness for C1 (amended) at `lap_distances = [3, 7, 7, 12]`,
`lap_start_offset = 5`. -/
theorem C1_witness :
    List.Chain' (· ≤ ·) (normalize [3, 7, 7, 12] 5).normalized_distances ∧
    (normalize [3, 7, 7, 12] 5).normalized_distances.getD 1 0 =
      ([3, 7, 7, 12] : List ℚ).getD 1 0 + 5 := by
  have h := C1_amended [3, 7, 7, 12] 5 (by simp)
    (by with_unfolding_all decide) (by norm_num [List.chain'_cons])
  exact ⟨h.1, h.2.1 (by simp) 1 (by simp)⟩

theorem getD_map_add (l : List ℚ) (c : ℚ) (i : ℕ) (h : i < l.length) :
    (l.map (· + c)).getD i 0 = l.getD i 0 + c := by
  rw [List.getD_eq_getElem _ _ (by simpa using h), List.getD_eq_getElem _ _ h,
    List.getElem_map]

theorem getD_drop_eq (lap : List ℚ) (k j : ℕ) (h : k + j < lap.length) :
    (lap.drop k).getD j 0 = lap.getD (k + j) 0 := by
  rw [List.getD_eq_get?, List.getD_eq_get?, List.get?_drop]

/-- `_estimate_track_length` inner loop: if the first drop beyond
`WRAP_THRESHOLD` happens at position `j`, the result is the running maximum
of the first `j` elements (seeded with `m`). -/
theorem estRun_break : ∀ (j : ℕ) (l : List ℚ) (m prev : ℚ),
    j < l.length →
    l.getD j 0 < (if j = 0 then prev else l.getD (j - 1) 0) - WRAP_THRESHOLD →
    (∀ i, i < j →
      ¬(l.getD i 0 < (if i = 0 then prev else l.getD (i - 1) 0) - WRAP_THRESHOLD)) →
    estRun m prev l = (l.take j).foldl max m := by
  intro j
  induction j with
  | zero =>
      intro l m prev hj hbreak _
      cases l with
      | nil => simp at hj
      | cons v rest =>
          rw [estRun, if_pos (by simpa using hbreak)]
          simp
  | succ n ih =>
      intro l m prev hj hbreak hnb
      cases l with
      | nil => simp at hj
      | cons v rest =>
          have h0 : ¬(v < prev - WRAP_THRESHOLD) := by simpa using hnb 0 (Nat.succ_pos n)
          rw [estRun, if_neg h0]
          rw [ih rest (max m v) v (by simpa using hj) ?_ ?_]
          · rw [List.take_succ_cons]
            simp
          · cases n with
            | zero => simpa using hbreak
            | succ n' =>
                have := hbreak
                simp only [List.getD_cons_succ, Nat.succ_ne_zero, if_false,
                  Nat.succ_sub_one] at this ⊢
                exact this
          · intro i hi
            cases i with
            | zero => simpa using hnb 1 (by omega)
            | succ i' =>
                have := hnb (i' + 2) (by omega)
                simp only [List.getD_cons_succ, Nat.succ_ne_zero, if_false,
                  Nat.succ_sub_one] at this ⊢
                exact this

/-- `_estimate_track_length` on a non-negative signal with exactly one drop
beyond `WRAP_THRESHOLD`, at index `k`, and all other drops at most
`NEGATIVE_JUMP_THRESHOLD`: the result is the running maximum of the first
`k` samples. -/
theorem estimateTrackLength_break (lap : List ℚ) (k : ℕ) (hk1 : 1 ≤ k)
    (hk2 : k < lap.length) (hnn : ∀ d ∈ lap, 0 ≤ d)
    (hwrap : lap.getD (k - 1) 0 - lap.getD k 0 > WRAP_THRESHOLD)
    (hother : ∀ i, i < lap.length → 0 < i → i ≠ k →
      lap.getD (i - 1) 0 - lap.getD i 0 ≤ NEGATIVE_JUMP_THRESHOLD) :
    estimateTrackLength lap = listMax (lap.take k) := by
  have hfilter : lap.filter (fun d => decide (0 ≤ d)) = lap :=
    List.filter_eq_self.mpr (fun a ha => by simpa using hnn a ha)
  unfold estimateTrackLength
  rw [hfilter]
  obtain ⟨k', rfl⟩ : ∃ k', k = k' + 1 :=
    ⟨k - 1, by omega⟩
  cases lap with
  | nil => simp at hk2
  | cons v0 rest =>
      have hlen : k' < rest.length := by
        simp only [List.length_cons] at hk2
        omega
      show estRun v0 v0 rest = listMax (List.take (k' + 1) (v0 :: rest))
      rw [estRun_break k' rest v0 v0 hlen ?_ ?_]
      · rw [List.take_succ_cons, listMax]
      · have hw := hwrap
        simp only [Nat.succ_sub_one, List.getD_cons_succ] at hw
        cases k' with
        | zero =>
            simp only [eq_self_iff_true, if_true, List.getD_cons_zero] at hw ⊢
            linarith
        | succ n' =>
            simp only [List.getD_cons_succ, Nat.succ_ne_zero, if_false,
              Nat.succ_sub_one] at hw ⊢
            linarith
      · intro i hi
        have ho := hother (i + 1) (by simp only [List.length_cons]; omega)
          (Nat.succ_pos i) (by omega)
        simp only [Nat.succ_sub_one, List.getD_cons_succ] at ho
        rw [WRAP_THRESHOLD]
        rw [NEGATIVE_JUMP_THRESHOLD] at ho
        cases i with
        | zero =>
            simp only [eq_self_iff_true, if_true, List.getD_cons_zero] at ho ⊢
            push_neg
            linarith
        | succ i' =>
            simp only [List.getD_cons_succ, Nat.succ_ne_zero, if_false,
              Nat.succ_sub_one] at ho ⊢
            push_neg
            linarith

/-- Per-sample loop of `normalize` past a single wrap at index `k`: the wrap
adds `track_length` to the offset once, registers `k`, and every later
sample is emitted as `sample + (offset + track_length)`. -/
theorem foldl_normStep_wrap (lap : List ℚ) (tl off : ℚ) (k : ℕ)
    (hk1 : 1 ≤ k) (hk2 : k < lap.length) (hnn : ∀ d ∈ lap, 0 ≤ d)
    (hwrap : lap.getD (k - 1) 0 - lap.getD k 0 > WRAP_THRESHOLD)
    (hother : ∀ i, i < lap.length → 0 < i → i ≠ k →
      lap.getD (i - 1) 0 - lap.getD i 0 ≤ NEGATIVE_JUMP_THRESHOLD) :
    ∀ n, k < n → n ≤ lap.length →
      (List.range n).foldl (normStep lap tl)
          { accRev := [], wrapsRev := [], off := off } =
        { accRev := (((lap.drop k).take (n - k)).map (· + (off + tl))).reverse ++
            ((lap.take k).map (· + off)).reverse,
          wrapsRev := [k], off := off + tl } := by
  intro n
  induction n with
  | zero => intro h; omega
  | succ m ih =>
      intro hkn hn
      by_cases hm : k < m
      · rw [List.range_succ, List.foldl_append, ih hm (by omega)]
        simp only [List.foldl_cons, List.foldl_nil]
        have hm' : m < lap.length := hn
        have hd0 : 0 ≤ lap.getD m 0 := hnn _ (getD_mem_of_lt hm')
        simp only [normStep]
        rw [if_neg (not_lt.mpr hd0)]
        have h1 : 0 < m := by omega
        have hprev : 0 ≤ lap.getD (m - 1) 0 :=
          hnn _ (getD_mem_of_lt (by omega))
        rw [if_pos ⟨h1, hprev⟩]
        have hdrop : lap.getD (m - 1) 0 - lap.getD m 0 ≤ NEGATIVE_JUMP_THRESHOLD :=
          hother m hm' h1 (by omega)
        rw [NEGATIVE_JUMP_THRESHOLD] at hdrop
        have hw : ¬(lap.getD (m - 1) 0 - lap.getD m 0 > WRAP_THRESHOLD) := by
          rw [WRAP_THRESHOLD]
          push_neg
          linarith
        rw [if_neg hw]
        have ha : ¬(lap.getD m 0 < lap.getD (m - 1) 0 - NEGATIVE_JUMP_THRESHOLD) := by
          rw [NEGATIVE_JUMP_THRESHOLD]
          push_neg
          linarith
        rw [if_neg ha]
        have e1 : m + 1 - k = (m - k) + 1 := by omega
        have e2 : m - k < (lap.drop k).length := by
          rw [List.length_drop]
          omega
        rw [e1, take_map_reverse_succ (lap.drop k) _ (m - k) e2,
          getD_drop_eq lap k (m - k) (by omega)]
        have e3 : k + (m - k) = m := by omega
        rw [e3]
        rfl
      · have hmk : m = k := by omega
        subst hmk
        rw [List.range_succ, List.foldl_append,
          foldl_normStep_nojump lap tl off hnn m (le_of_lt hn)
            (fun i hi h0 => hother i (by omega) h0 (by omega))]
        simp only [List.foldl_cons, List.foldl_nil]
        have hd0 : 0 ≤ lap.getD m 0 := hnn _ (getD_mem_of_lt hk2)
        simp only [normStep]
        rw [if_neg (not_lt.mpr hd0)]
        have hprev : 0 ≤ lap.getD (m - 1) 0 :=
          hnn _ (getD_mem_of_lt (by omega))
        rw [if_pos ⟨hk1, hprev⟩]
        rw [if_pos hwrap]
        have e1 : m + 1 - m = 1 := by omega
        have e2 : (lap.drop m).take 1 = [lap.getD m 0] := by
          have hcons : lap.drop m = lap.getD m 0 :: lap.drop (m + 1) := by
            rw [List.getD_eq_getElem _ _ hk2]
            exact List.drop_eq_getElem_cons hk2
          rw [hcons, List.take_succ_cons, List.take_zero]
        rw [e1, e2]
        rfl

/-- Claim C2: a non-negative distance signal with lap_start_offset 0,
exactly one consecutive drop beyond `WRAP_THRESHOLD` (at index `k`), and all
other consecutive drops at most `NEGATIVE_JUMP_THRESHOLD`, normalizes with
`wrap_points = [k]`, `track_length` equal to the running maximum of the
samples before `k`, and `normalized[i] = raw[i] + track_length` for every
`i ≥ k`. -/
theorem C2_single_wrap (lap : List ℚ) (k : ℕ) (hk1 : 1 ≤ k)
    (hk2 : k < lap.length) (hnn : ∀ d ∈ lap, 0 ≤ d)
    (hwrap : lap.getD (k - 1) 0 - lap.getD k 0 > WRAP_THRESHOLD)
    (hother : ∀ i, i < lap.length → 0 < i → i ≠ k →
      lap.getD (i - 1) 0 - lap.getD i 0 ≤ NEGATIVE_JUMP_THRESHOLD) :
    (normalize lap 0).wrap_points = [k] ∧
    (normalize lap 0).track_length = listMax (lap.take k) ∧
    ∀ i, k ≤ i → i < lap.length →
      (normalize lap 0).normalized_distances.getD i 0 =
        lap.getD i 0 + (normalize lap 0).track_length := by
  have hne : lap ≠ [] := by
    intro h
    rw [h] at hk2
    simp at hk2
  have hlen2 : ¬(lap.length < 2) := by omega
  have hfold := foldl_normStep_wrap lap (estimateTrackLength lap) 0 k hk1 hk2
    hnn hwrap hother lap.length hk2 (le_refl _)
  have hnorm : normalize lap 0 =
      { original_distances := lap,
        normalized_distances :=
          ((lap.take k).map (· + 0)) ++ ((lap.drop k).map (· + (0 + estimateTrackLength lap))),
        track_length := estimateTrackLength lap,
        wrap_points := [k] } := by
    unfold normalize
    rw [if_neg (by simp [List.isEmpty_iff]; exact hne), if_neg hlen2]
    simp only
    rw [hfold]
    have e1 : (lap.drop k).take (lap.length - k) = lap.drop k := by
      have : lap.length - k = (lap.drop k).length := (List.length_drop k lap).symm
      rw [this, List.take_length]
    rw [e1]
    simp [List.reverse_append]
  rw [hnorm]
  refine ⟨rfl, estimateTrackLength_break lap k hk1 hk2 hnn hwrap hother, ?_⟩
  intro i hki hi
  dsimp only
  have hblen : ((lap.take k).map (· + 0)).length = k := by
    rw [List.length_map, List.length_take]
    omega
  rw [List.getD_append_right _ _ _ _ (by rw [hblen]; exact hki)]
  rw [hblen]
  rw [getD_map_add _ _ (i - k) (by rw [List.length_drop]; omega)]
  rw [getD_drop_eq lap k (i - k) (by omega)]
  have e3 : k + (i - k) = i := by omega
  rw [e3, zero_add]

/-- Witness for C2 at `lap_distances = [0, 100, 10, 20]`, `k = 2`. -/
theorem C2_witness :
    (normalize [0, 100, 10, 20] 0).wrap_points = [2] ∧
    (normalize [0, 100, 10, 20] 0).track_length =
      listMax (([0, 100, 10, 20] : List ℚ).take 2) ∧
    (normalize [0, 100, 10, 20] 0).normalized_distances.getD 3 0 =
      ([0, 100, 10, 20] : List ℚ).getD 3 0 +
        (normalize [0, 100, 10, 20] 0).track_length := by
  have h := C2_single_wrap [0, 100, 10, 20] 2 (by omega) (by simp)
    (by with_unfolding_all decide) (by with_unfolding_all decide)
    (by with_unfolding_all decide)
  exact ⟨h.1, h.2.1, h.2.2 3 (by omega) (by simp)⟩

theorem headD_mem_of_ne_nil {α : Type*} (l : List α) (d : α) (h : l ≠ []) :
    l.headD d ∈ l := by
  cases l with
  | nil => exact absurd rfl h
  | cons a t => exact List.mem_cons_self a t

/-- Every index in the resolved index set of a segment is in range of the
normalized list. -/
theorem resolveIndices_lt {nd : NormalizedDistance} {seg : Segment}
    {l : List ℕ} (h : resolveIndices nd seg = some l) :
    ∀ i ∈ l, i < nd.normalized_distances.length := by
  unfold resolveIndices at h
  cases h1 : findIndexForDistance nd seg.start_dist with
  | none => rw [h1] at h; simp at h
  | some s =>
    cases h2 : findIndexForDistance nd seg.end_dist with
    | none => rw [h1, h2] at h; simp at h
    | some e =>
        rw [h1, h2] at h
        have hs := findIndexForDistance_lt h1
        have he := findIndexForDistance_lt h2
        simp only [Option.bind_eq_bind, Option.some_bind] at h
        by_cases hse : s ≥ e
        · rw [if_pos hse] at h
          have hl : List.range' s (nd.normalized_distances.length - s) ++
              List.range' 0 e = l := by simpa using h
          intro i hi
          rw [← hl] at hi
          rcases List.mem_append.mp hi with hi | hi
          · have := List.mem_range'_1.mp hi
            omega
          · have := List.mem_range'_1.mp hi
            omega
        · rw [if_neg hse] at h
          have hl : List.range' s (e - s) = l := by simpa using h
          intro i hi
          rw [← hl] at hi
          have := List.mem_range'_1.mp hi
          omega

/-- `_calculate_segment_time` on an index set resolved from the normalized
list: the dead bounds guards hold, so the result is `n / 60` for `n ≥ 2`
and `0` otherwise. -/
theorem calcSegmentTime_eq {nd : NormalizedDistance} {seg : Segment}
    {indices : List ℕ} (h : resolveIndices nd seg = some indices) :
    calcSegmentTime nd indices =
      if 2 ≤ indices.length then (indices.length : ℚ) / 60 else 0 := by
  unfold calcSegmentTime
  by_cases hlen : indices.length < 2
  · rw [if_pos hlen, if_neg (by omega)]
  · rw [if_neg hlen]
    have hne : indices ≠ [] := by
      intro hnil
      rw [hnil] at hlen
      simp at hlen
    have h1 : indices.headD 0 < nd.normalized_distances.length :=
      resolveIndices_lt h _ (headD_mem_of_ne_nil indices 0 hne)
    have h2 : indices.getLastD 0 < nd.normalized_distances.length :=
      resolveIndices_lt h _ (getLastD_mem_of_ne_nil indices 0 hne)
    rw [if_pos ⟨h1, h2⟩, if_pos (by omega), if_pos (by omega)]

/-- Claim C4 as stated is false at a one-sample distance signal: the
resolved index set of the (degenerate) segment is `[0]` (one sample), yet
the returned `segment_time` is `0`, not `1 / 60`. -/
theorem C4_counterexample :
    calculateLapMetrics "s" 1
      { track_name := "t", track_layout := none, version := 1,
        track_length := 0,
        segments := [{ segment_id := "X", segment_type := SegmentType.corner, start_dist := 0, end_dist := 0, entry_dist := none, apex_dist := none, exit_dist := none }],
        reference_lap_number := 1, reference_session_id := "s" }
      (fun c => if c = "LapDist" then
        some { channel := "LapDist", values := [0] } else none)
      none none =
      .ok
        { session_id := "s", lap_number := 1, layout_version := 1,
          track_length := 0, total_time := some 0,
          segments := [{ segment_id := "X", lap_number := 0, session_id := "", entry_speed := none, mid_speed := none, exit_speed := none, min_speed := none, max_speed := none, segment_time := 0, time_delta_to_reference := none, braking_distance := none, max_brake_pressure := none, throttle_application := none, steering_smoothness := none, avg_speed := none }] } ∧
    resolveIndices (normalize [0] 0)
      { segment_id := "X", segment_type := .corner, start_dist := 0,
        end_dist := 0, entry_dist := none, apex_dist := none,
        exit_dist := none } = some [0] ∧
    ((0 : ℚ) ≠ (([0] : List ℕ).length : ℚ) / 60) := by
  refine ⟨by with_unfolding_all decide, by with_unfolding_all decide, ?_⟩
  simp only [List.length_singleton, Nat.cast_one]
  norm_num

/-- Claim C4, amended: for every segment processed by
`calculate_lap_metrics`, the returned `segment_time` is `n / 60` only when
the resolved index set has `n ≥ 2` samples, and `0` when it has fewer than
two; the time-delta pass never changes `segment_time`. -/
theorem C4_amended (segment : Segment) (normalized : NormalizedDistance)
    (signals : String → Option SignalSlice) (m : SegmentMetrics)
    (h : calculateSegmentMetrics segment normalized signals = .ok m) :
    (∃ indices, resolveIndices normalized segment = some indices ∧
      m.segment_time =
        if 2 ≤ indices.length then (indices.length : ℚ) / 60 else 0) ∧
    ∀ (ms : List SegmentMetrics) (ref : LapSegmentMetrics),
      (calcTimeDeltas ms ref).map (·.segment_time) =
        ms.map (·.segment_time) := by
  constructor
  · unfold calculateSegmentMetrics at h
    split at h
    · exact absurd h (by simp)
    · next indices hr =>
        refine ⟨indices, hr, ?_⟩
        split at h
        · next he =>
            have hm : m = emptySegmentMetrics segment.segment_id :=
              (Except.ok.inj h).symm
            rw [hm]
            have hnil : indices = [] := by
              cases indices with
              | nil => rfl
              | cons a t => simp at he
            rw [hnil]
            simp [emptySegmentMetrics]
        · next he =>
            have hm := (Except.ok.inj h).symm
            rw [hm]
            exact calcSegmentTime_eq hr
  · intro ms ref
    unfold calcTimeDeltas
    rw [List.map_map]
    apply List.map_congr_left
    intro x _
    simp only [Function.comp_apply]
    cases refLookup ref.segments x.segment_id with
    | none => rfl
    | some r =>
        by_cases hrt : r.segment_time > 0
        · simp [hrt]
        · simp [hrt]

/-- Witness for C4 (amended) at a two-sample distance signal with a
two-sample segment. -/
theorem C4_witness :
    ∃ indices,
      resolveIndices (normalize [0, 10] 0)
        { segment_id := "X", segment_type := .corner, start_dist := 0,
          end_dist := 10, entry_dist := none, apex_dist := none,
          exit_dist := none } = some indices ∧
      ({ segment_id := "X", lap_number := 0, session_id := "",
          entry_speed := none, mid_speed := none, exit_speed := none,
          min_speed := none, max_speed := none, segment_time := 0,
          time_delta_to_reference := none, braking_distance := none,
          max_brake_pressure := none, throttle_application := none,
          steering_smoothness := none, avg_speed := none } :
        SegmentMetrics).segment_time =
        if 2 ≤ indices.length then (indices.length : ℚ) / 60 else 0 := by
  exact (C4_amended
    { segment_id := "X", segment_type := .corner, start_dist := 0,
      end_dist := 10, entry_dist := none, apex_dist := none,
      exit_dist := none }
    (normalize [0, 10] 0) (fun _ => none) _
    (by with_unfolding_all decide)).1

/-- Claim C9: when the `LapDist` entry is present but its values are empty
and the layout has at least one segment, `calculate_lap_metrics` hits the
unguarded `normalized_distances[0]` lookup — the uncaught `IndexError` —
rather than the `InputError` guard or a degraded all-`None` row. -/
theorem C9_empty_lapdist_index_error (session_id : String) (lap_number : ℤ)
    (layout : TrackLayout) (signals : String → Option SignalSlice)
    (lap_time : Option ℚ) (ref : Option LapSegmentMetrics)
    (ld : SignalSlice) (hld : signals "LapDist" = some ld)
    (hempty : ld.values = []) (hseg : layout.segments ≠ []) :
    calculateLapMetrics session_id lap_number layout signals lap_time ref =
      .error .indexError := by
  cases hsegs : layout.segments with
  | nil => exact absurd hsegs hseg
  | cons s rest =>
      simp only [calculateLapMetrics, hld, hempty, hsegs]
      have hf : calculateSegmentMetrics s (normalize [] 0) signals =
          .error () := rfl
      rw [List.mapM_cons, hf]
      rfl

/-- Witness for C9 at a one-segment layout with an empty `LapDist` slice. -/
theorem C9_witness :
    calculateLapMetrics "s" 1
      { track_name := "t", track_layout := none, version := 1,
        track_length := 0,
        segments := [{ segment_id := "X", segment_type := SegmentType.corner, start_dist := 0, end_dist := 0, entry_dist := none, apex_dist := none, exit_dist := none }],
        reference_lap_number := 1, reference_session_id := "s" }
      (fun c => if c = "LapDist" then
        some { channel := "LapDist", values := [] } else none)
      none none = .error .indexError := by
  exact C9_empty_lapdist_index_error "s" 1 _ _ none none
    { channel := "LapDist", values := [] } rfl rfl (by simp)

/-- Claim C6: two detected corner segments merge into a single `complex`
(first corner's `start`/`entry`, second corner's `end`/`exit`, no apex) when
the wrap-corrected gap is below `COMPLEX_DISTANCE_THRESHOLD`; with a gap of
40 m they stay separate and `_fill_straights` inserts a straight between
them. -/
theorem C6_merge_adjacent_corners (c1 c2 : Segment) (track_length : ℚ) :
    ((if c2.start_dist - c1.end_dist < 0 then
        c2.start_dist - c1.end_dist + track_length
      else c2.start_dist - c1.end_dist) < COMPLEX_DISTANCE_THRESHOLD →
      mergeAdjacentCorners [c1, c2] track_length =
        [{ segment_id := "", segment_type := SegmentType.complex,
           start_dist := c1.start_dist, end_dist := c2.end_dist,
           entry_dist := c1.entry_dist, apex_dist := none,
           exit_dist := c2.exit_dist }]) ∧
    (c2.start_dist - c1.end_dist = 40 → c1.start_dist ≤ c1.end_dist →
      mergeAdjacentCorners [c1, c2] track_length = [c1, c2] ∧
      straightSeg c1.end_dist c2.start_dist ∈
        fillStraights [c1, c2] track_length ∧
      c1 ∈ fillStraights [c1, c2] track_length ∧
      c2 ∈ fillStraights [c1, c2] track_length) := by
  constructor
  · intro hgap
    unfold mergeAdjacentCorners
    rw [if_neg (by simp)]
    simp only [mergeLoop]
    rw [if_pos hgap]
  · intro hgap hwf
    have hstart : c1.start_dist ≤ c2.start_dist := by
      have : c2.start_dist = c1.end_dist + 40 := by linarith
      linarith
    have hmerge : mergeAdjacentCorners [c1, c2] track_length = [c1, c2] := by
      unfold mergeAdjacentCorners
      rw [if_neg (by simp)]
      simp only [mergeLoop]
      rw [hgap]
      have hb : ¬((40 : ℚ) < 0) := by norm_num
      rw [if_neg hb]
      have hc : ¬((40 : ℚ) < COMPLEX_DISTANCE_THRESHOLD) := by
        rw [COMPLEX_DISTANCE_THRESHOLD]
        norm_num
      rw [if_neg hc]
    have hsort : sortByStart [c1, c2] = [c1, c2] := by
      apply stableSort_eq_of_sorted
      rw [List.chain'_cons]
      refine ⟨by simpa using not_lt.mpr hstart, by simp⟩
    have hfill : fillStraights [c1, c2] track_length =
        (if c1.start_dist > STRAIGHT_MIN_LENGTH then
          [straightSeg 0 c1.start_dist] else []) ++
        [c1, straightSeg c1.end_dist c2.start_dist, c2] ++
        (if (track_length - c2.end_dist) + c1.start_dist > STRAIGHT_MIN_LENGTH
          then [straightSeg c2.end_dist track_length] else []) := by
      unfold fillStraights
      rw [if_neg (by simp)]
      simp only [hsort]
      have hmid : interFill [c1, c2] =
          [c1, straightSeg c1.end_dist c2.start_dist, c2] := by
        simp only [interFill]
        rw [if_pos (by rw [hgap, STRAIGHT_MIN_LENGTH]; norm_num)]
      rw [hmid]
      simp
    refine ⟨hmerge, ?_, ?_, ?_⟩
    · rw [hfill]
      simp
    · rw [hfill]
      simp
    · rw [hfill]
      simp

/-- Witness for C6: the merge branch at corners `[0,10]`/`[20,40]` (gap 10)
and the separate-plus-straight branch at corners `[0,10]`/`[50,60]`
(gap 40). -/
theorem C6_witness :
    mergeAdjacentCorners
      [{ segment_id := "", segment_type := SegmentType.corner, start_dist := 0, end_dist := 10, entry_dist := some 1, apex_dist := some 2, exit_dist := some 3 },
       { segment_id := "", segment_type := SegmentType.corner, start_dist := 20, end_dist := 40, entry_dist := some 4, apex_dist := some 5, exit_dist := some 6 }] 100 =
      [{ segment_id := "", segment_type := SegmentType.complex, start_dist := 0, end_dist := 40, entry_dist := some 1, apex_dist := none, exit_dist := some 6 }] ∧
    mergeAdjacentCorners
      [{ segment_id := "", segment_type := SegmentType.corner, start_dist := 0, end_dist := 10, entry_dist := some 1, apex_dist := some 2, exit_dist := some 3 },
       { segment_id := "", segment_type := SegmentType.corner, start_dist := 50, end_dist := 60, entry_dist := some 4, apex_dist := some 5, exit_dist := some 6 }] 100 =
      [{ segment_id := "", segment_type := SegmentType.corner, start_dist := 0, end_dist := 10, entry_dist := some 1, apex_dist := some 2, exit_dist := some 3 },
       { segment_id := "", segment_type := SegmentType.corner, start_dist := 50, end_dist := 60, entry_dist := some 4, apex_dist := some 5, exit_dist := some 6 }] ∧
    straightSeg 10 50 ∈
      fillStraights
        [{ segment_id := "", segment_type := SegmentType.corner, start_dist := 0, end_dist := 10, entry_dist := some 1, apex_dist := some 2, exit_dist := some 3 },
         { segment_id := "", segment_type := SegmentType.corner, start_dist := 50, end_dist := 60, entry_dist := some 4, apex_dist := some 5, exit_dist := some 6 }] 100 := by
  have h1 := (C6_merge_adjacent_corners
    { segment_id := "", segment_type := SegmentType.corner, start_dist := 0,
      end_dist := 10, entry_dist := some 1, apex_dist := some 2,
      exit_dist := some 3 }
    { segment_id := "", segment_type := SegmentType.corner, start_dist := 20,
      end_dist := 40, entry_dist := some 4, apex_dist := some 5,
      exit_dist := some 6 } 100).1 (by with_unfolding_all decide)
  have h2 := (C6_merge_adjacent_corners
    { segment_id := "", segment_type := SegmentType.corner, start_dist := 0,
      end_dist := 10, entry_dist := some 1, apex_dist := some 2,
      exit_dist := some 3 }
    { segment_id := "", segment_type := SegmentType.corner, start_dist := 50,
      end_dist := 60, entry_dist := some 4, apex_dist := some 5,
      exit_dist := some 6 } 100).2 (by with_unfolding_all decide)
    (by with_unfolding_all decide)
  exact ⟨h1, h2.1, h2.2.1⟩

/-- Default segment used to state indexed properties of segment lists. -/
def dfltSeg : Segment := straightSeg 0 0

theorem mem_interFill_self {s : Segment} :
    ∀ {l : List Segment}, s ∈ l → s ∈ interFill l := by
  intro l
  induction l with
  | nil => intro h; exact absurd h (List.not_mem_nil s)
  | cons x xs ih =>
      intro h
      cases xs with
      | nil => simpa [interFill] using h
      | cons y t =>
          rw [interFill]
          rcases List.mem_cons.mp h with h1 | h1
          · subst h1
            by_cases hg : y.start_dist - s.end_dist > STRAIGHT_MIN_LENGTH
            · rw [if_pos hg]
              exact List.mem_cons_self _ _
            · rw [if_neg hg]
              exact List.mem_cons_self _ _
          · by_cases hg : y.start_dist - x.end_dist > STRAIGHT_MIN_LENGTH
            · rw [if_pos hg]
              exact List.mem_cons_of_mem _ (List.mem_cons_of_mem _ (ih h1))
            · rw [if_neg hg]
              exact List.mem_cons_of_mem _ (ih h1)

theorem interFill_gap_mem :
    ∀ (l : List Segment) (i : ℕ), i + 1 < l.length →
    (l.getD (i + 1) dfltSeg).start_dist - (l.getD i dfltSeg).end_dist >
      STRAIGHT_MIN_LENGTH →
    straightSeg (l.getD i dfltSeg).end_dist
      (l.getD (i + 1) dfltSeg).start_dist ∈ interFill l := by
  intro l
  induction l with
  | nil => intro i hi; simp at hi
  | cons x xs ih =>
      intro i hi hgap
      cases xs with
      | nil => simp at hi
      | cons y t =>
          rw [interFill]
          cases i with
          | zero =>
              simp only [List.getD_cons_zero, List.getD_cons_succ] at hgap ⊢
              rw [if_pos hgap]
              exact List.mem_cons_of_mem _ (List.mem_cons_self _ _)
          | succ i' =>
              simp only [List.getD_cons_succ] at hgap ⊢
              have hmem := ih i' (by simpa using hi) hgap
              by_cases hg : y.start_dist - x.end_dist > STRAIGHT_MIN_LENGTH
              · rw [if_pos hg]
                exact List.mem_cons_of_mem _ (List.mem_cons_of_mem _ hmem)
              · rw [if_neg hg]
                exact List.mem_cons_of_mem _ hmem

theorem mem_interFill_cases {s : Segment} :
    ∀ {l : List Segment}, s ∈ interFill l →
    s ∈ l ∨ ∃ i, i + 1 < l.length ∧
      (l.getD (i + 1) dfltSeg).start_dist - (l.getD i dfltSeg).end_dist >
        STRAIGHT_MIN_LENGTH ∧
      s = straightSeg (l.getD i dfltSeg).end_dist
        (l.getD (i + 1) dfltSeg).start_dist := by
  intro l
  induction l with
  | nil => intro h; simp [interFill] at h
  | cons x xs ih =>
      intro h
      cases xs with
      | nil =>
          rw [interFill] at h
          exact Or.inl h
      | cons y t =>
          rw [interFill] at h
          by_cases hg : y.start_dist - x.end_dist > STRAIGHT_MIN_LENGTH
          · rw [if_pos hg] at h
            rcases List.mem_cons.mp h with h1 | h1
            · exact Or.inl (h1 ▸ List.mem_cons_self _ _)
            · rcases List.mem_cons.mp h1 with h2 | h2
              · refine Or.inr ⟨0, by simp, by simpa using hg, by simpa using h2⟩
              · rcases ih h2 with h3 | ⟨i, hi, hgap, hs⟩
                · exact Or.inl (List.mem_cons_of_mem _ h3)
                · refine Or.inr ⟨i + 1, by simpa using hi, ?_, ?_⟩
                  · simpa using hgap
                  · simpa using hs
          · rw [if_neg hg] at h
            rcases List.mem_cons.mp h with h1 | h1
            · exact Or.inl (h1 ▸ List.mem_cons_self _ _)
            · rcases ih h1 with h3 | ⟨i, hi, hgap, hs⟩
              · exact Or.inl (List.mem_cons_of_mem _ h3)
              · refine Or.inr ⟨i + 1, by simpa using hi, ?_, ?_⟩
                · simpa using hgap
                · simpa using hs

/-- Claim C7 as stated is false at the boundary: a leading gap of exactly
`STRAIGHT_MIN_LENGTH` (20 m — also the wrap gap here) produces no straight
segment, because the code compares with strict `>`. -/
theorem C7_counterexample :
    ({ segment_id := "", segment_type := SegmentType.corner, start_dist := 20, end_dist := 30, entry_dist := none, apex_dist := none, exit_dist := none } : Segment).start_dist - 0 ≥ STRAIGHT_MIN_LENGTH ∧
    fillStraights [{ segment_id := "", segment_type := SegmentType.corner, start_dist := 20, end_dist := 30, entry_dist := none, apex_dist := none, exit_dist := none }] 30 =
      [{ segment_id := "", segment_type := SegmentType.corner, start_dist := 20, end_dist := 30, entry_dist := none, apex_dist := none, exit_dist := none }] ∧
    ∀ s ∈ fillStraights [{ segment_id := "", segment_type := SegmentType.corner, start_dist := 20, end_dist := 30, entry_dist := none, apex_dist := none, exit_dist := none }] 30,
      s.segment_type ≠ SegmentType.straight := by
  refine ⟨?_, by with_unfolding_all decide, by with_unfolding_all decide⟩
  rw [STRAIGHT_MIN_LENGTH]
  norm_num

/-- Claim C7, amended: in the straight-filling step, for a sorted list of
non-straight segments, every gap strictly exceeding `STRAIGHT_MIN_LENGTH`
(before the first segment, between consecutive segments, and the combined
wrap gap after the last one) produces a straight segment covering it; every
straight in the output is one of these, so gaps of at most 20 m produce no
segment. -/
theorem C7_amended (segs : List Segment) (track_length : ℚ) (hne : segs ≠ [])
    (hsorted : List.Chain' (fun a b => a.start_dist ≤ b.start_dist) segs)
    (hns : ∀ s ∈ segs, s.segment_type ≠ SegmentType.straight) :
    (∀ s ∈ segs, s ∈ fillStraights segs track_length) ∧
    ((segs.headD dfltSeg).start_dist > STRAIGHT_MIN_LENGTH →
      straightSeg 0 (segs.headD dfltSeg).start_dist ∈
        fillStraights segs track_length) ∧
    (∀ i, i + 1 < segs.length →
      (segs.getD (i + 1) dfltSeg).start_dist - (segs.getD i dfltSeg).end_dist >
        STRAIGHT_MIN_LENGTH →
      straightSeg (segs.getD i dfltSeg).end_dist
        (segs.getD (i + 1) dfltSeg).start_dist ∈
        fillStraights segs track_length) ∧
    ((track_length - (segs.getLastD dfltSeg).end_dist) +
        (segs.headD dfltSeg).start_dist > STRAIGHT_MIN_LENGTH →
      straightSeg (segs.getLastD dfltSeg).end_dist track_length ∈
        fillStraights segs track_length) ∧
    (∀ s ∈ fillStraights segs track_length,
      s.segment_type = SegmentType.straight →
      (s = straightSeg 0 (segs.headD dfltSeg).start_dist ∧
        (segs.headD dfltSeg).start_dist > STRAIGHT_MIN_LENGTH) ∨
      (∃ i, i + 1 < segs.length ∧
        (segs.getD (i + 1) dfltSeg).start_dist -
          (segs.getD i dfltSeg).end_dist > STRAIGHT_MIN_LENGTH ∧
        s = straightSeg (segs.getD i dfltSeg).end_dist
          (segs.getD (i + 1) dfltSeg).start_dist) ∨
      (s = straightSeg (segs.getLastD dfltSeg).end_dist track_length ∧
        (track_length - (segs.getLastD dfltSeg).end_dist) +
          (segs.headD dfltSeg).start_dist > STRAIGHT_MIN_LENGTH)) := by
  have hsid : sortByStart segs = segs := by
    apply stableSort_eq_of_sorted
    exact hsorted.imp (fun hab => by simpa using not_lt.mpr hab)
  have hfill : fillStraights segs track_length =
      (if (segs.headD dfltSeg).start_dist > STRAIGHT_MIN_LENGTH then
        [straightSeg 0 (segs.headD dfltSeg).start_dist] else []) ++
      interFill segs ++
      (if (track_length - (segs.getLastD dfltSeg).end_dist) +
          (segs.headD dfltSeg).start_dist > STRAIGHT_MIN_LENGTH then
        [straightSeg (segs.getLastD dfltSeg).end_dist track_length] else []) := by
    unfold fillStraights
    rw [if_neg (by simpa [List.isEmpty_iff] using hne)]
    simp only [hsid]
    rfl
  refine ⟨?_, ?_, ?_, ?_, ?_⟩
  · intro s hs
    rw [hfill]
    exact List.mem_append_left _ (List.mem_append_right _ (mem_interFill_self hs))
  · intro hcond
    rw [hfill, if_pos hcond]
    exact List.mem_append_left _ (List.mem_append_left _ (List.mem_cons_self _ _))
  · intro i hi hgap
    rw [hfill]
    exact List.mem_append_left _
      (List.mem_append_right _ (interFill_gap_mem segs i hi hgap))
  · intro hcond
    rw [hfill, if_pos hcond]
    exact List.mem_append_right _ (List.mem_cons_self _ _)
  · intro s hs htype
    rw [hfill] at hs
    rcases List.mem_append.mp hs with hs1 | hs1
    · rcases List.mem_append.mp hs1 with hs2 | hs2
      · by_cases hcond : (segs.headD dfltSeg).start_dist > STRAIGHT_MIN_LENGTH
        · rw [if_pos hcond] at hs2
          exact Or.inl ⟨by simpa using hs2, hcond⟩
        · rw [if_neg hcond] at hs2
          exact absurd hs2 (List.not_mem_nil s)
      · rcases mem_interFill_cases hs2 with h3 | ⟨i, hi, hgap, hseq⟩
        · exact absurd htype (hns s h3)
        · exact Or.inr (Or.inl ⟨i, hi, hgap, hseq⟩)
    · by_cases hcond : (track_length - (segs.getLastD dfltSeg).end_dist) +
          (segs.headD dfltSeg).start_dist > STRAIGHT_MIN_LENGTH
      · rw [if_pos hcond] at hs1
        exact Or.inr (Or.inr ⟨by simpa using hs1, hcond⟩)
      · rw [if_neg hcond] at hs1
        exact absurd hs1 (List.not_mem_nil s)

/-- Witness for C7 (amended) at two corners `[0,10]` / `[50,60]` on a 100 m
track: the 40 m gap and the 50 m wrap gap each produce their straight. -/
theorem C7_witness :
    straightSeg 10 50 ∈
      fillStraights
        [{ segment_id := "", segment_type := SegmentType.corner, start_dist := 0, end_dist := 10, entry_dist := none, apex_dist := none, exit_dist := none },
         { segment_id := "", segment_type := SegmentType.corner, start_dist := 50, end_dist := 60, entry_dist := none, apex_dist := none, exit_dist := none }] 100 ∧
    straightSeg 60 100 ∈
      fillStraights
        [{ segment_id := "", segment_type := SegmentType.corner, start_dist := 0, end_dist := 10, entry_dist := none, apex_dist := none, exit_dist := none },
         { segment_id := "", segment_type := SegmentType.corner, start_dist := 50, end_dist := 60, entry_dist := none, apex_dist := none, exit_dist := none }] 100 := by
  have h := C7_amended
    [{ segment_id := "", segment_type := SegmentType.corner, start_dist := 0, end_dist := 10, entry_dist := none, apex_dist := none, exit_dist := none },
     { segment_id := "", segment_type := SegmentType.corner, start_dist := 50, end_dist := 60, entry_dist := none, apex_dist := none, exit_dist := none }] 100
    (by simp) (by norm_num [List.chain'_cons]) (by with_unfolding_all decide)
  refine ⟨?_, ?_⟩
  · have := h.2.2.1 0 (by simp) (by with_unfolding_all decide)
    simpa using this
  · have := h.2.2.2.1 (by with_unfolding_all decide)
    simpa using this

theorem foldl_dczStep_zero (nd : NormalizedDistance) :
    ∀ (k m : ℕ) (s : DczState), s.in_corner = false →
      (List.enumFrom m (List.replicate k (0 : ℚ))).foldl
        (dczStep nd CURVATURE_THRESHOLD) s = s := by
  intro k
  induction k with
  | zero => intro m s _; rfl
  | succ k' ih =>
      intro m s hs
      rw [List.replicate_succ, List.enumFrom_cons, List.foldl_cons]
      have hstep : dczStep nd CURVATURE_THRESHOLD s (m, 0) = s := by
        unfold dczStep
        rw [if_neg ?_, if_neg ?_]
        · intro hcond
          have h2 := hcond.2
          rw [hs] at h2
          exact Bool.false_ne_true h2
        · intro hcond
          have h1 := hcond.1
          rw [CURVATURE_THRESHOLD] at h1
          norm_num at h1
      rw [hstep]
      exact ih (m + 1) s hs

theorem detectCornerZones_replicate (nd : NormalizedDistance) (n : ℕ) :
    detectCornerZones (List.replicate n 0) nd CURVATURE_THRESHOLD = .ok [] := by
  unfold detectCornerZones
  rw [show (List.replicate n (0 : ℚ)).enum =
    List.enumFrom 0 (List.replicate n 0) from rfl]
  rw [foldl_dczStep_zero nd n 0 _ rfl]
  rfl

/-- Claim C3 as stated is false: with a non-empty distance signal but a
steering signal longer than it, a corner zone can open at an index past the
end of the normalized list, and the still-open-zone handling reads
`normalized_distances[start_idx]` unguarded — an uncaught `IndexError`, not
a `TrackLayout`. -/
theorem C3_counterexample :
    ¬(∀ (steering lap_dist : SignalSlice), lap_dist.values ≠ [] →
        ∃ layout, detectLayout "t" none (some steering) none none none
          (some lap_dist) 1 "s" = .ok layout) := by
  intro h
  obtain ⟨layout, hl⟩ := h { channel := "st", values := [0, 0, 0, 1] }
    { channel := "ld", values := [100, 101] } (by simp)
  have hres : detectLayout "t" none
      (some { channel := "st", values := [0, 0, 0, 1] }) none none none
      (some { channel := "ld", values := [100, 101] }) 1 "s" =
      .error .indexError := by
    with_unfolding_all decide
  rw [hres] at hl
  exact Except.noConfusion hl

/-- Claim C3, amended: `detect_layout` fails with the mandatory-distance
error (`InputError`) exactly when the distance signal is `None` or empty;
and for every non-empty distance signal with steering, brake, throttle and
speed all `None`, the call returns a `TrackLayout` (the general claim fails
only when a non-`None` optional signal outruns the distance signal, which
can hit an uncaught `IndexError`). -/
theorem C3_amended (track_name : String) (track_layout : Option String)
    (steering_signal brake_signal throttle_signal speed_signal
      lap_dist_signal : Option SignalSlice) (lap_number : ℤ)
    (session_id : String) :
    (detectLayout track_name track_layout steering_signal brake_signal
        throttle_signal speed_signal lap_dist_signal lap_number session_id =
        .error .inputError ↔
      lap_dist_signal = none ∨
        ∃ s, lap_dist_signal = some s ∧ s.values = []) ∧
    (∀ s, lap_dist_signal = some s → s.values ≠ [] → steering_signal = none →
      brake_signal = none → throttle_signal = none → speed_signal = none →
      ∃ layout, detectLayout track_name track_layout steering_signal
        brake_signal throttle_signal speed_signal lap_dist_signal lap_number
        session_id = .ok layout) := by
  constructor
  · cases lap_dist_signal with
    | none =>
        constructor
        · intro _
          exact Or.inl rfl
        · intro _
          rfl
    | some s =>
        by_cases hv : s.values.isEmpty
        · constructor
          · intro _
            exact Or.inr ⟨s, rfl, List.isEmpty_iff.mp hv⟩
          · intro _
            simp only [detectLayout]
            rw [if_pos hv]
        · constructor
          · intro hcontra
            exfalso
            simp only [detectLayout] at hcontra
            rw [if_neg hv] at hcontra
            split at hcontra
            · exact DetectError.noConfusion (Except.error.inj hcontra)
            · split at hcontra
              · exact DetectError.noConfusion (Except.error.inj hcontra)
              · exact Except.noConfusion hcontra
          · intro hor
            rcases hor with h | ⟨s', hs', hnil⟩
            · exact Option.noConfusion h
            · have : s.values = [] := by
                rw [Option.some.inj hs']
                exact hnil
              rw [← List.isEmpty_iff] at this
              exact absurd this hv
  · intro s hs hv hst hbr hth hsp
    subst hs
    subst hst
    subst hbr
    subst hth
    subst hsp
    simp only [detectLayout]
    rw [if_neg (by simpa [List.isEmpty_iff] using hv)]
    rw [detectCornerZones_replicate]
    exact ⟨_, rfl⟩

/-- Witness for C3 (amended): a one-sample distance signal with no optional
signals yields a layout. -/
theorem C3_witness :
    ∃ layout, detectLayout "t" none none none none none
      (some { channel := "ld", values := [5] }) 1 "s" = .ok layout :=
  (C3_amended "t" none none none none none
    (some { channel := "ld", values := [5] }) 1 "s").2
    { channel := "ld", values := [5] } rfl (by simp) rfl rfl rfl rfl

theorem calculateSegmentMetrics_delta_none {seg : Segment}
    {nd : NormalizedDistance} {signals : String → Option SignalSlice}
    {m : SegmentMetrics}
    (h : calculateSegmentMetrics seg nd signals = .ok m) :
    m.time_delta_to_reference = none := by
  unfold calculateSegmentMetrics at h
  split at h
  · exact absurd h (by simp)
  · split at h
    · rw [← Except.ok.inj h]
      rfl
    · rw [← Except.ok.inj h]

theorem exceptMapM_mem {α β ε : Type*} {f : α → Except ε β} :
    ∀ {l : List α} {out : List β}, l.mapM f = .ok out →
      ∀ b ∈ out, ∃ a ∈ l, f a = .ok b := by
  intro l
  induction l with
  | nil =>
      intro out h b hb
      rw [List.mapM_nil] at h
      have hout : ([] : List β) = out := Except.ok.inj h
      rw [← hout] at hb
      exact absurd hb (List.not_mem_nil b)
  | cons a t ih =>
      intro out h b hb
      rw [List.mapM_cons] at h
      cases hfa : f a with
      | error e =>
          rw [hfa] at h
          exact absurd h (by simp [Bind.bind, Except.bind])
      | ok b0 =>
          rw [hfa] at h
          cases hmt : t.mapM f with
          | error e =>
              rw [hmt] at h
              exact absurd h (by simp [Bind.bind, Except.bind])
          | ok bs =>
              rw [hmt] at h
              have hout : b0 :: bs = out := by
                simpa [Bind.bind, Except.bind, pure, Except.pure] using h
              rw [← hout] at hb
              rcases List.mem_cons.mp hb with h1 | h1
              · exact ⟨a, List.mem_cons_self a t, h1 ▸ hfa⟩
              · obtain ⟨a', ha', hfa'⟩ := ih hmt b h1
                exact ⟨a', List.mem_cons_of_mem a ha', hfa'⟩

theorem calculateLapMetrics_none_ref {session_id : String} {lap_number : ℤ}
    {layout : TrackLayout} {signals : String → Option SignalSlice}
    {lap_time : Option ℚ} {lm : LapSegmentMetrics}
    (h : calculateLapMetrics session_id lap_number layout signals lap_time
      none = .ok lm) :
    ∀ s ∈ lm.segments, s.time_delta_to_reference = none := by
  simp only [calculateLapMetrics] at h
  split at h
  · exact absurd h (by simp)
  · split at h
    · exact absurd h (by simp)
    · next segms hmapm =>
        intro s hs
        rw [← Except.ok.inj h] at hs
        dsimp only at hs
        obtain ⟨a, _, hfa⟩ := exceptMapM_mem hmapm s hs
        exact calculateSegmentMetrics_delta_none hfa

theorem cacheReconstruct_delta {session_id : String} {lap ver : ℤ}
    {stored : LapSegmentMetrics}
    (hst : ∀ s ∈ stored.segments, s.time_delta_to_reference = none) :
    ∀ s ∈ (cacheReconstruct session_id lap ver stored).segments,
      s.time_delta_to_reference = none := by
  intro s hs
  unfold cacheReconstruct at hs
  dsimp only at hs
  obtain ⟨x, hx, rfl⟩ := List.mem_map.mp hs
  exact hst x (mem_of_mem_stableSort hx)

theorem storeLookup_mem {st : Store} {session_id : String} {lap : ℤ}
    {m : LapSegmentMetrics} (h : storeLookup st session_id lap = some m) :
    ∃ e ∈ st, e.1 = session_id ∧ e.2.1 = lap ∧ e.2.2 = m := by
  unfold storeLookup at h
  cases hf : st.find?
      (fun e => decide (e.1 = session_id) && decide (e.2.1 = lap)) with
  | none => rw [hf] at h; simp at h
  | some e =>
      rw [hf] at h
      have hmem := List.mem_of_find?_eq_some hf
      have hcond := List.find?_some hf
      simp only [Bool.and_eq_true, decide_eq_true_eq] at hcond
      simp only [Option.map_some'] at h
      exact ⟨e, hmem, hcond.1, hcond.2, Option.some.inj h⟩

theorem cacheGetLapMetrics_hit {st : Store} {session_id : String}
    {lap ver : ℤ} {m : LapSegmentMetrics}
    (h : (cacheGetLapMetrics st session_id lap ver).1 = some m) :
    ∃ stored, storeLookup st session_id lap = some stored ∧
      m = cacheReconstruct session_id lap ver stored := by
  unfold cacheGetLapMetrics at h
  cases hl : storeLookup st session_id lap with
  | none => rw [hl] at h; simp at h
  | some stored =>
      rw [hl] at h
      dsimp only at h
      by_cases hv : stored.layout_version ≠ ver
      · rw [if_pos hv] at h
        simp at h
      · rw [if_neg hv] at h
        dsimp only at h
        exact ⟨stored, rfl, (Option.some.inj h).symm⟩

/-- Claim C5 as stated is false via a stale Tier-2 entry: if the cache
already holds metrics for `(session, 5)` carrying a time delta (written when
the layout's reference lap was a different lap — reachable because
force-regenerating a layout, e.g. with a `preferred_lap` override, changes
`reference_lap_number` without bumping `version`), then
`get_lap_metrics(session, 5)` with a layout whose reference lap is now 5
serves that entry from the cache, delta included. -/
theorem C5_counterexample :
    (serviceGetLapMetrics
      [("s", 5, { session_id := "s", lap_number := 5, layout_version := 1, track_length := 100, total_time := some 10, segments := [{ segment_id := "T1", lap_number := 5, session_id := "s", entry_speed := none, mid_speed := none, exit_speed := none, min_speed := none, max_speed := none, segment_time := 1, time_delta_to_reference := some 1, braking_distance := none, max_brake_pressure := none, throttle_application := none, steering_smoothness := none, avg_speed := none }] })]
      "s" 5
      { track_name := "t", track_layout := none, version := 1,
        track_length := 100, segments := [], reference_lap_number := 5,
        reference_session_id := "s" }
      (fun _ => []) [] false).2 =
      .ok
        { session_id := "s", lap_number := 5, layout_version := 1, track_length := 100, total_time := some 10, segments := [{ segment_id := "T1", lap_number := 5, session_id := "s", entry_speed := none, mid_speed := none, exit_speed := none, min_speed := none, max_speed := none, segment_time := 1, time_delta_to_reference := some 1, braking_distance := none, max_brake_pressure := none, throttle_application := none, steering_smoothness := none, avg_speed := none }] } ∧
    ¬(∀ s ∈ [{ segment_id := "T1", lap_number := 5, session_id := "s", entry_speed := none, mid_speed := none, exit_speed := none, min_speed := none, max_speed := none, segment_time := 1, time_delta_to_reference := some (1 : ℚ), braking_distance := none, max_brake_pressure := none, throttle_application := none, steering_smoothness := none, avg_speed := none }],
        SegmentMetrics.time_delta_to_reference s = none) := by
  refine ⟨by with_unfolding_all decide, by with_unfolding_all decide⟩

/-- Claim C5, amended: provided every cached Tier-2 entry for
`(session, reference_lap)` itself carries no time deltas (which holds
whenever the layout's reference lap has not been changed under the same
version), `get_lap_metrics` on the reference lap returns metrics whose
`time_delta_to_reference` is `None` in every segment — both when freshly
computed (the self-comparison is skipped, so the reference argument is
`None`) and when served from the Tier-2 cache. -/
theorem C5_amended (st : Store) (session_id : String) (layout : TrackLayout)
    (lapSignals : ℤ → List SignalSlice) (laps : List Lap) (force : Bool)
    (m : LapSegmentMetrics)
    (hinv : ∀ e ∈ st, e.1 = session_id →
      e.2.1 = layout.reference_lap_number →
      ∀ s ∈ e.2.2.segments, s.time_delta_to_reference = none)
    (hm : (serviceGetLapMetrics st session_id layout.reference_lap_number
      layout lapSignals laps force).2 = .ok m) :
    ∀ s ∈ m.segments, s.time_delta_to_reference = none := by
  unfold serviceGetLapMetrics at hm
  rw [if_pos rfl] at hm
  unfold serviceGetLapMetricsRef at hm
  dsimp only at hm
  cases force with
  | true =>
      rw [if_pos rfl] at hm
      dsimp only at hm
      split at hm
      · exact absurd hm (by simp)
      · split at hm
        · exact absurd hm (by simp)
        · next metrics hcalc =>
            have hmm : metrics = m := by simpa using Except.ok.inj hm
            rw [← hmm]
            exact calculateLapMetrics_none_ref hcalc
  | false =>
      rw [if_neg (by simp)] at hm
      split at hm
      · next m' heq =>
          have hmm : m' = m := by simpa using Except.ok.inj hm
          obtain ⟨stored, hlook, hrecon⟩ := cacheGetLapMetrics_hit heq
          obtain ⟨e, hmem, he1, he2, he3⟩ := storeLookup_mem hlook
          have hst : ∀ s ∈ stored.segments,
              s.time_delta_to_reference = none := by
            rw [← he3]
            exact hinv e hmem he1 he2
          rw [← hmm, hrecon]
          exact cacheReconstruct_delta hst
      · split at hm
        · exact absurd hm (by simp)
        · split at hm
          · exact absurd hm (by simp)
          · next metrics hcalc =>
              have hmm : metrics = m := by simpa using Except.ok.inj hm
              rw [← hmm]
              exact calculateLapMetrics_none_ref hcalc

/-- Witness for C5 (amended): empty cache, a one-segment layout with
reference lap 5, a `LapDist` slice of one sample; the freshly computed
reference metrics carry no delta. -/
theorem C5_witness :
    ({ segment_id := "T1", lap_number := 0, session_id := "", entry_speed := none, mid_speed := none, exit_speed := none, min_speed := none, max_speed := none, segment_time := 0, time_delta_to_reference := none, braking_distance := none, max_brake_pressure := none, throttle_application := none, steering_smoothness := none, avg_speed := none } :
      SegmentMetrics).time_delta_to_reference = none := by
  have h := C5_amended [] "s"
    { track_name := "t", track_layout := none, version := 1,
      track_length := 0, segments := [{ segment_id := "T1", segment_type := SegmentType.corner, start_dist := 0, end_dist := 0, entry_dist := none, apex_dist := none, exit_dist := none }],
      reference_lap_number := 5, reference_session_id := "s" }
    (fun _ => [{ channel := "LapDist", values := [0] }])
    [{ lap_number := 5, start_time := 0, end_time := none, lap_time := some 10, valid := true }]
    false
    { session_id := "s", lap_number := 5, layout_version := 1, track_length := 0, total_time := some 10, segments := [{ segment_id := "T1", lap_number := 0, session_id := "", entry_speed := none, mid_speed := none, exit_speed := none, min_speed := none, max_speed := none, segment_time := 0, time_delta_to_reference := none, braking_distance := none, max_brake_pressure := none, throttle_application := none, steering_smoothness := none, avg_speed := none }] }
    (by intro e he; exact absurd he (List.not_mem_nil e))
    (by with_unfolding_all decide)
  exact h _ (List.mem_cons_self _ _)

end App
